import Mathlib

/-
Verification development for the star-catalog generator (src/src/app.ts).

The embedding works at the granularity of parsed catalog lines: each stage of
the pipeline consumes a list of records whose fields are the fixed-column
substrings / numeric values that the source extracts with `substring` and
`toNumber`.  Blank lines (skipped by every parser before any other action) and
the line-level divider filtering of the NGC parsers are modelled by the input
lists containing only the surviving lines.  JavaScript numbers are modelled by
`ℚ` (magnitudes, coordinates, proper motions) and `ℕ`/`ℤ` (catalog ids);
`undefined` object fields are modelled by `Option`.  The trigonometric call
`cos` is kept abstract as a parameter `cosd : ℚ → ℚ` (cosine of an angle given
in degrees, the way every call site uses it).  Operations that would throw a
`TypeError` in JavaScript (reading a property of `undefined`) are modelled by
stage functions returning `Option`/an explicit crash result.

The mutable module-level state of app.ts (the star registry `fk5Index`, the
cross-reference tables and the running counters) is gathered in `PState`.
The aliasing `bscIndex[bscNum] = star` (the same object as `fk5Index[fk5Num]`)
is modelled by the key-valued table `bscKey`, recorded at the single source
location that creates the alias.
-/

set_option maxHeartbeats 1000000

namespace StarCat

/-- ASCII lowercase test, modelling the JS regex class `[a-z]`. -/
def isLowerCh (c : Char) : Bool := 97 ≤ c.toNat && c.toNat ≤ 122

/-- ASCII uppercase test, modelling the JS regex class `[A-Z]`. -/
def isUpperCh (c : Char) : Bool := 65 ≤ c.toNat && c.toNat ≤ 90

/-- ASCII digit test, modelling the JS regex class `\d`. -/
def isDigitCh (c : Char) : Bool := 48 ≤ c.toNat && c.toNat ≤ 57

/-- JS `Array.prototype.indexOf`: index of the first occurrence, `-1` when absent. -/
def jsIndexOf (l : List String) (a : String) : Int :=
  match l.findIdx? (fun x => x = a) with
  | some i => (i : Int)
  | none => -1

/-- Whitespace for the purposes of JS `String.prototype.trim`, restricted to
the characters occurring in the catalog sources. -/
def jsIsSpace (c : Char) : Bool := c = ' ' || c = '\t' || c = '\n' || c = '\r'

/-- JS `String.prototype.trim`. -/
def jsTrim (s : String) : String :=
  String.mk (((s.toList.dropWhile jsIsSpace).reverse.dropWhile jsIsSpace).reverse)

/-- JS `String.prototype.toLowerCase` on the ASCII catalog data. -/
def jsToLower (s : String) : String :=
  String.mk (s.toList.map Char.toLower)

/-- Test whether the first list is a leading segment of the second. -/
def listHasPfx : List Char → List Char → Bool
  | [], _ => true
  | _ :: _, [] => false
  | p :: ps, c :: cs => p = c && listHasPfx ps cs

/-- Replace the first occurrence of `pat` by `sub` in a character list. -/
def jsReplaceFirstAux (pat sub : List Char) : List Char → List Char
  | [] => []
  | c :: cs =>
    if listHasPfx pat (c :: cs) then sub ++ (c :: cs).drop pat.length
    else c :: jsReplaceFirstAux pat sub cs

/-- JS `String.prototype.replace` with a plain string pattern: replaces only
the first occurrence. -/
def jsReplaceFirst (s pat sub : String) : String :=
  String.mk (jsReplaceFirstAux pat.toList sub.toList s.toList)

/-- The `bayerRanks` array of app.ts (line 9): Greek-letter abbreviations in rank order. -/
def bayerRanks : List String :=
  ["alp", "bet", "gam", "del", "eps", "zet", "eta", "the", "iot", "kap", "lam", "mu",
   "nu", "xi", "omi", "pi", "rho", "sig", "tau", "ups", "phi", "chi", "psi", "ome"]

/-- The `constellationCodes` array of app.ts (line 12): 88 constellation abbreviations. -/
def constellationCodes : List String :=
  ["and", "ant", "aps", "aql", "aqr", "ara", "ari", "aur", "boo", "cae", "cam", "cap",
   "car", "cas", "cen", "cep", "cet", "cha", "cir", "cma", "cmi", "cnc", "col", "com",
   "cra", "crb", "crt", "cru", "crv", "cvn", "cyg", "del", "dor", "dra", "equ", "eri",
   "for", "gem", "gru", "her", "hor", "hya", "hyi", "ind", "lac", "leo", "lep", "lib",
   "lmi", "lup", "lyn", "lyr", "men", "mic", "mon", "mus", "nor", "oct", "oph", "ori",
   "pav", "peg", "per", "phe", "pic", "psa", "psc", "pup", "pyx", "ret", "scl", "sco",
   "sct", "ser", "sex", "sge", "sgr", "tau", "tel", "tra", "tri", "tuc", "uma", "umi",
   "vel", "vir", "vol", "vul"]

/-- The legacy inclusion list `bscExtras` of app.ts (line 52). -/
def bscExtras : List Nat :=
  [8, 87, 340, 1643, 1751, 3732, 4030, 4067, 4531, 5223, 5473, 5714, 5888, 6970, 8076]

/-- The configured bright-star magnitude ceiling `magLimitBSC = 6` (app.ts line 54). -/
def magLimitBSC : ℚ := 6

/-- The configured astrometry magnitude ceiling `magLimitHipparcos = 6.25` (app.ts line 55). -/
def magLimitHipparcos : ℚ := mkRat 25 4

/-- Modelled from the spec: the helper `toMixedCase` from the external utility
library `@tubular/util` (not part of this repository) converts a name to title
case — the first letter of each space-separated word uppercased, the remaining
letters lowercased. -/
def toMixedCase (s : String) : String :=
  String.mk ((s.toList.foldl
    (fun (p : List Char × Bool) c =>
      if c = ' ' then (p.1 ++ [c], true)
      else (p.1 ++ [if p.2 then c.toUpper else c.toLower], false))
    ([], true)).1)

/-- The test `FK5_NAMES_TO_SKIP.test(name)` for the regex `/\d|(^[a-z][a-km-z]? )/`
(app.ts line 57): a digit anywhere, or — anchored at the start — one lowercase
letter, optionally followed by a second lowercase letter other than `l`,
followed by a space. -/
def fk5NamesToSkip (s : String) : Bool :=
  s.toList.any isDigitCh ||
  (match s.toList with
   | c1 :: c2 :: rest =>
     isLowerCh c1 &&
       (c2 = ' ' ||
        (((97 ≤ c2.toNat && c2.toNat ≤ 107) || (109 ≤ c2.toNat && c2.toNat ≤ 122)) &&
         rest.head? = some ' '))
   | _ => false)

/-- The record type `StarInfo` of types.ts.  Every field of the JS object may be
`undefined` until assigned, hence the `Option` types; `none` is the unassigned
state of a fresh `{} as StarInfo`. -/
structure StarInfo where
  fk5Num : Option Nat := none
  bscNum : Option Nat := none
  hipNum : Option Nat := none
  ngcIcNum : Option Int := none
  flamsteed : Option Nat := none
  bayerRank : Option Nat := none
  subIndex : Option Nat := none
  constellation : Option Nat := none
  messierNum : Option Nat := none
  name : Option String := none
  RA : Option ℚ := none
  DE : Option ℚ := none
  pmRA : Option ℚ := none
  pmDE : Option ℚ := none
  vmag : Option ℚ := none
  deriving DecidableEq, Repr

/-- Pointwise update of a numeric-keyed table, modelling `table[key] = value`
(and with `none`, `delete table[key]`). -/
def upd {α : Type} (f : Nat → Option α) (k : Nat) (v : Option α) : Nat → Option α :=
  fun x => if x = k then v else f x

/-- The module-level mutable state of app.ts (lines 125-146): the star registry
`fk5Index`, the cross-reference tables, the running counters, and the pleiades
anchor.  `bscKey` models the object aliasing of `bscIndex` (see the file
comment). -/
structure PState where
  fk5Index : Nat → Option StarInfo := fun _ => none
  bsc2fk5 : Nat → Option Nat := fun _ => none
  hd2fk5 : Nat → Option Nat := fun _ => none
  hd2bsc : Nat → Option Nat := fun _ => none
  bscKey : Nat → Option Nat := fun _ => none
  totalFK5 : Nat := 0
  totalBSC : Nat := 0
  totalHIP : Nat := 0
  totalDSO : Nat := 0
  fk5UpdatesFromHIP : Nat := 0
  bscUpdatesFromHIP : Nat := 0
  highestFK5 : Nat := 0
  highestBSC : Nat := 0
  highestHIP : Nat := 0
  highestStar : Nat := 0
  addedStars : Nat := 0
  pleiades : Option StarInfo := none

/-- One non-blank line of the FK5 cross index, by the fixed-column fields that
`processCrossIndex` extracts (app.ts lines 155-206).  String-valued columns are
kept as strings; columns read only through `toNumber` carry their numeric
value (`0` for blank/non-numeric input, as `toNumber` yields). -/
structure FK5Line where
  fk5Num : Nat
  raHours : ℚ
  raMins : ℚ
  raSecs : ℚ
  pmRA : ℚ
  deNeg : Bool
  deDegs : ℚ
  deMins : ℚ
  deSecs : ℚ
  pmDE : ℚ
  vmag : ℚ
  hd : Option Nat
  bayerFlamsteed : String
  bayerFlamsteedNum : Nat
  subIndexNum : Nat
  constellationStr : String
  rawName : String
  deriving Repr

/-- The proper-name handling of `processCrossIndex` (app.ts lines 206-216):
trim, cut at the first semicolon, reject via `FK5_NAMES_TO_SKIP`, store the
accepted name in mixed case. -/
def fk5NameOf (rawName : String) : Option String :=
  let name := jsTrim rawName
  if name ≠ "" then
    let name2 :=
      if name.toList.any (fun c => c = ';') then
        jsTrim (String.mk (name.toList.takeWhile (fun c => c ≠ ';')))
      else name
    if name2 ≠ "" ∧ fk5NamesToSkip name2 = false then some (toMixedCase name2) else none
  else none

/-- One iteration of the `processCrossIndex` loop (app.ts lines 151-232). -/
def crossIndexStep (s : PState) (L : FK5Line) : PState :=
  let highestFK5' := max s.highestFK5 L.fk5Num
  let star0 : StarInfo :=
    { fk5Num := some L.fk5Num
      RA := some (L.raHours + L.raMins / 60 + L.raSecs / 3600)
      pmRA := some L.pmRA
      DE := some ((L.deDegs + L.deMins / 60 + L.deSecs / 3600) * (if L.deNeg then -1 else 1))
      pmDE := some L.pmDE
      vmag := some L.vmag }
  let hd2fk5' :=
    match L.hd with
    | some hd => if 0 < hd then upd s.hd2fk5 hd (some L.fk5Num) else s.hd2fk5
    | none => s.hd2fk5
  let bf := jsToLower (jsTrim L.bayerFlamsteed)
  let star1 : StarInfo :=
    if bf ≠ "" then
      if L.bayerFlamsteedNum = 0 then
        let rank := (jsIndexOf bayerRanks bf + 1).toNat
        if 0 < rank then
          { star0 with flamsteed := some L.bayerFlamsteedNum, bayerRank := some rank,
                       subIndex := some L.subIndexNum }
        else { star0 with flamsteed := some L.bayerFlamsteedNum, bayerRank := some rank }
      else { star0 with flamsteed := some L.bayerFlamsteedNum }
    else { star0 with flamsteed := some 0 }
  let star2 : StarInfo :=
    if star1.flamsteed ≠ some 0 ∨ star1.bayerRank ≠ some 0 then
      let con :=
        (jsIndexOf constellationCodes
          (jsReplaceFirst (jsToLower (jsTrim L.constellationStr)) "pet" "peg") + 1).toNat
      if con = 0 then
        { star1 with constellation := some con, flamsteed := some 0, bayerRank := some 0,
                     subIndex := some 0 }
      else { star1 with constellation := some con }
    else star1
  let star3 := { star2 with name := fk5NameOf L.rawName }
  let pleiades' :=
    if L.fk5Num = 139 then
      some { messierNum := some 45, name := some "Pleiades", RA := star3.RA, DE := star3.DE,
             pmRA := star3.pmRA, pmDE := star3.pmDE, vmag := some (mkRat 8 5) : StarInfo }
    else s.pleiades
  { s with fk5Index := upd s.fk5Index L.fk5Num (some star3)
           hd2fk5 := hd2fk5'
           totalFK5 := s.totalFK5 + 1
           highestFK5 := highestFK5'
           highestStar := highestFK5'
           pleiades := pleiades' }

/-- Stage 1, `processCrossIndex` (app.ts lines 148-233). -/
def processCrossIndex (s : PState) (ls : List FK5Line) : PState :=
  ls.foldl crossIndexStep s

/-- One non-blank line of the Yale Bright Star Catalog, by the fixed-column
fields that `processYaleBrightStarCatalog` extracts (app.ts lines 251-367).
`vmagStr` is `none` when columns 102-107 are blank; `fk5Field` keeps the
raw columns 37-41 (pass 2 tests its trimmed emptiness) while `fk5Num` is the
numeric value that `toNumber` gives for it. -/
structure BSCLine where
  bscNum : Nat
  nameField : String
  fk5Field : String
  fk5Num : Nat
  vmagStr : Option ℚ
  hd : Nat
  raHours : ℚ
  raMins : ℚ
  raSecs : ℚ
  deNeg : Bool
  deDegs : ℚ
  deMins : ℚ
  deSecs : ℚ
  pmRAraw : ℚ
  pmDEraw : ℚ
  flamsteedNum : Nat
  subIndexNum : Nat
  deriving Repr

/-- The clip `if (fk5Num > highestFK5) fk5Num = 0` used by both passes of the
bright-star merger (app.ts lines 256-257 and 306-307). -/
def clipFK5 (F n : Nat) : Nat := if F < n then 0 else n

/-- The loop-local variables of bright-star pass 1 (app.ts lines 238-245).
In the source `lastBSC` and `lastFK5` start at `-1`; those sentinels are only
ever read inside the duplicate branch, which requires a preceding line with a
non-blank name to have overwritten them, so they are modelled by `0`. -/
structure P1Loc where
  lastBSC : Nat := 0
  lastFK5 : Nat := 0
  lastName : String := ""
  lastMag : ℚ := mkRat 9999 10
  deriving Repr

/-- One iteration of bright-star pass 1 (app.ts lines 247-285): mark the id as
seen, compare the embedded name field with the previous line, and on a
duplicate drop the dimmer record (the later one on a magnitude tie) while
carrying the maximum resolved primary id on the survivor. -/
def pass1Step (F : Nat) (st : (Nat → Option Nat) × P1Loc) (L : BSCLine) :
    (Nat → Option Nat) × P1Loc :=
  let m := upd st.1 L.bscNum (some 0)
  let loc := st.2
  let currFK5 := clipFK5 F L.fk5Num
  match L.vmagStr with
  | none => (m, loc)
  | some currMag =>
    if L.nameField = loc.lastName ∧ jsTrim L.nameField ≠ "" then
      let f := max loc.lastFK5 currFK5
      let m2 := upd (upd m loc.lastBSC (some f)) L.bscNum (some f)
      if loc.lastMag ≤ currMag then
        (upd m2 L.bscNum none, { loc with lastFK5 := f })
      else
        (upd m2 loc.lastBSC none,
         { lastBSC := L.bscNum, lastFK5 := f, lastName := L.nameField, lastMag := currMag })
    else
      (m, { lastBSC := L.bscNum, lastFK5 := currFK5, lastName := L.nameField,
            lastMag := currMag })

/-- Bright-star pass 1 over all lines, producing the updated `bsc2fk5` table. -/
def pass1 (F : Nat) (m : Nat → Option Nat) (ls : List BSCLine) : Nat → Option Nat :=
  (ls.foldl (pass1Step F) (m, {})).1

/-- The Bayer rank parsed from a bright-star name field (app.ts lines 317-318):
columns 3-6 of the field, trimmed and lowercased, looked up in `bayerRanks`. -/
def bayerRankOf (nameField : String) : Nat :=
  (jsIndexOf bayerRanks (jsToLower (jsTrim ((nameField.drop 3).take 3))) + 1).toNat

/-- The bright-star acceptance disjunction of pass 2 (app.ts lines 320-321):
magnitude at or below the ceiling, legacy inclusion list, or a recognized
Greek-letter rank under the two rank-dependent ceilings. -/
def bscAccept (bscNum : Nat) (bayerRank : Nat) (vmag : ℚ) : Prop :=
  vmag ≤ magLimitBSC ∨ bscNum ∈ bscExtras ∨
    (0 < bayerRank ∧ ((bayerRank < 14 ∧ vmag ≤ 6) ∨ (bayerRank < 8 ∧ vmag ≤ mkRat 13 2)))

instance (b r : Nat) (v : ℚ) : Decidable (bscAccept b r v) := by
  unfold bscAccept; infer_instance

/-- The acceptance branch of bright-star pass 2 (app.ts lines 320-349): when
the record qualifies and its resolved primary id does not point at an existing
registry record, append a new record at the next key after the primary block
and rebind `fk5Num` to that key. -/
def pass2Accept (cosd : ℚ → ℚ) (s : PState) (L : BSCLine) (bayerRank fk5Num0 : Nat)
    (vmag : ℚ) : PState × Nat :=
  if bscAccept L.bscNum bayerRank vmag ∧
      (fk5Num0 = 0 ∨ s.highestFK5 < fk5Num0 ∨ s.fk5Index fk5Num0 = none) then
    let a := s.addedStars + 1
    let key := s.highestFK5 + a
    let de := (L.deDegs + L.deMins / 60 + L.deSecs / 3600) * (if L.deNeg then -1 else 1)
    let star : StarInfo :=
      { vmag := some vmag
        RA := some (L.raHours + L.raMins / 60 + L.raSecs / 3600)
        DE := some de
        pmRA := some (L.pmRAraw * mkRat 66667 10000 / cosd de)
        pmDE := some (L.pmDEraw * 100) }
    ({ s with addedStars := a
              fk5Index := upd s.fk5Index key (some star)
              totalBSC := s.totalBSC + 1
              highestBSC := key
              highestStar := key }, key)
  else (s, fk5Num0)

/-- The merge branch of bright-star pass 2 (app.ts lines 351-369): when the
(possibly rebound) primary id points at an existing registry record, write the
bright-star fields onto it and record the id in the cross-reference and alias
tables. -/
def pass2Annotate (s1 : PState) (L : BSCLine) (bayerRank fk5Num : Nat) : PState :=
  if 0 < fk5Num then
    match s1.fk5Index fk5Num with
    | none => s1
    | some star =>
      let star1 := { star with bscNum := some L.bscNum }
      let star2 :=
        if jsTrim L.nameField ≠ "" then
          { star1 with
              flamsteed := some L.flamsteedNum
              bayerRank := some bayerRank
              subIndex := some L.subIndexNum
              constellation :=
                some ((jsIndexOf constellationCodes
                  (jsToLower ((L.nameField.drop 7).take 3)) + 1).toNat) }
        else star1
      { s1 with fk5Index := upd s1.fk5Index fk5Num (some star2)
                bsc2fk5 := upd s1.bsc2fk5 L.bscNum (some fk5Num)
                bscKey := upd s1.bscKey L.bscNum (some fk5Num)
                hd2bsc :=
                  if 0 < L.hd then upd s1.hd2bsc L.hd (some L.bscNum) else s1.hd2bsc }
  else s1

/-- One iteration of bright-star pass 2 (app.ts lines 289-370). -/
def pass2Step (cosd : ℚ → ℚ) (s : PState) (L : BSCLine) : PState :=
  match s.bsc2fk5 L.bscNum with
  | none => s
  | some carried =>
    let fk5Num0 : Nat :=
      if jsTrim L.fk5Field = "" then carried else clipFK5 s.highestFK5 L.fk5Num
    match L.vmagStr with
    | none => s
    | some vmag =>
      let bayerRank := bayerRankOf L.nameField
      let p := pass2Accept cosd s L bayerRank fk5Num0 vmag
      pass2Annotate p.1 L bayerRank p.2

/-- Stage 2, `processYaleBrightStarCatalog` (app.ts lines 235-371): pass 1
rewrites the `bsc2fk5` table, pass 2 merges the surviving lines. -/
def processYaleBrightStarCatalog (cosd : ℚ → ℚ) (s : PState) (ls : List BSCLine) : PState :=
  (ls.foldl (pass2Step cosd) { s with bsc2fk5 := pass1 s.highestFK5 s.bsc2fk5 ls })

/-- One non-blank line of the bright-star notes file: id from columns 0-5, the
raw classification columns 5-11 (trimmed at the use site), and the explanatory
text from column 12 onward. -/
structure NotesLine where
  bscNum : Nat
  codeField : String
  rest : String
  deriving Repr

/-- The name extraction `/^([A-Z][A-Z ]+)[.;]/.exec(...)` of the notes stage
(app.ts line 391): an uppercase letter, a nonempty run of uppercase letters and
spaces, then a period or semicolon; the captured group is the letter plus the
run.  Because the terminators are outside the repeated class, the greedy match
succeeds exactly when the maximal run is followed by a terminator. -/
def notesNameOf (rest : String) : Option String :=
  match rest.toList with
  | [] => none
  | c :: cs =>
    if isUpperCh c then
      let run := cs.takeWhile (fun d => isUpperCh d || d = ' ')
      let after := cs.dropWhile (fun d => isUpperCh d || d = ' ')
      if run ≠ [] ∧ (after.head? = some '.' ∨ after.head? = some ';') then
        some (String.mk (c :: run))
      else none
    else none

/-- One iteration of the notes loop (app.ts lines 377-397).  The source guards
with `bsc2fk5[bscNum] === 0`, which does not skip ids that are absent from the
table; for those, `fk5Index[bsc2fk5[bscNum]].name = ...` dereferences
`undefined` and throws — modelled by `none`. -/
def notesStep (s : PState) (L : NotesLine) : Option PState :=
  if s.bsc2fk5 L.bscNum = some 0 then some s
  else if jsTrim L.codeField ≠ "1N:" then some s
  else
    match notesNameOf L.rest with
    | none => some s
    | some name =>
      match s.bsc2fk5 L.bscNum with
      | none => none
      | some k =>
        match s.fk5Index k with
        | none => none
        | some star =>
          some { s with
                   fk5Index := upd s.fk5Index k (some { star with name := some (toMixedCase name) }) }

/-- Stage 3, `processYaleBrightStarCatalogNotes` (app.ts lines 373-400);
`none` when some line throws. -/
def processYaleBrightStarCatalogNotes (s : PState) : List NotesLine → Option PState
  | [] => some s
  | L :: rest =>
    match notesStep s L with
    | none => none
    | some s' => processYaleBrightStarCatalogNotes s' rest

/-- One data row of the Hipparcos query result, by the pipe-separated parts
that `processHipparcosStarCatalog` extracts (app.ts lines 409-420).  The five
string parts gated by the blank test on line 422 are `none` when blank. -/
structure HipRow where
  hipNum : Nat
  hdNum : Nat
  vmagStr : Option ℚ
  raStr : Option ℚ
  deStr : Option ℚ
  pmRAStr : Option ℚ
  pmDEStr : Option ℚ
  deriving Repr

/-- Outcome of one Hipparcos row: continue, stop the whole loop (the `break` on
line 445), or throw. -/
inductive HipStepResult where
  | next (s : PState)
  | stop (s : PState)
  | crash

/-- Resolution `fk5Num = toNumber(hd2fk5[hdNum])` (app.ts lines 431-434). -/
def hipResolveFk5 (s : PState) (row : HipRow) : Nat :=
  if 0 < row.hdNum then (s.hd2fk5 row.hdNum).getD 0 else 0

/-- Resolution `bscNum = toNumber(hd2bsc[hdNum])` (app.ts lines 431-434). -/
def hipResolveBsc (s : PState) (row : HipRow) : Nat :=
  if 0 < row.hdNum then (s.hd2bsc row.hdNum).getD 0 else 0

/-- The field updates of app.ts lines 452-456: magnitude becomes the minimum of
old and new (`star.vmag ?? vmag` handles a fresh record), position is
overwritten, and proper motion is overwritten with the declination-dependent
cosine correction computed from the just-assigned declination. -/
def hipUpdateStar (cosd : ℚ → ℚ) (star : StarInfo) (vmag ra de pmra pmde : ℚ) : StarInfo :=
  { star with vmag := some (min vmag (star.vmag.getD vmag))
              RA := some (ra / 15)
              DE := some de
              pmRA := some (pmra * mkRat 66667 10000000 / cosd de)
              pmDE := some (pmde / 10) }

/-- One iteration of the Hipparcos loop (app.ts lines 405-466).  The blank-
field guard mirrors `if (!raStr || !deStr || !vmagStr || !pmRAStr ||
!pmDEStr) continue` of line 422; past it, the parsed values are read off the
(present) fields. -/
def hipRowStep (cosd : ℚ → ℚ) (s : PState) (row : HipRow) : HipStepResult :=
  if row.hipNum = 0 then .next s
  else if row.raStr = none ∨ row.deStr = none ∨ row.vmagStr = none ∨
      row.pmRAStr = none ∨ row.pmDEStr = none then .next s
  else
    let ra := row.raStr.getD 0
    let de := row.deStr.getD 0
    let vmag := row.vmagStr.getD 0
    let pmra := row.pmRAStr.getD 0
    let pmde := row.pmDEStr.getD 0
    let fk5Num := hipResolveFk5 s row
    let bscNum := hipResolveBsc s row
    if 0 < fk5Num then
      match s.fk5Index fk5Num with
      | none => .crash
      | some star =>
        .next { s with
                  fk5UpdatesFromHIP := s.fk5UpdatesFromHIP + 1
                  fk5Index := upd s.fk5Index fk5Num
                    (some (hipUpdateStar cosd star vmag ra de pmra pmde)) }
    else if 0 < bscNum then
      match s.bscKey bscNum with
      | none => .crash
      | some k =>
        match s.fk5Index k with
        | none => .crash
        | some star =>
          .next { s with
                    bscUpdatesFromHIP := s.bscUpdatesFromHIP + 1
                    fk5Index := upd s.fk5Index k
                      (some (hipUpdateStar cosd star vmag ra de pmra pmde)) }
    else if magLimitHipparcos < vmag then .stop s
    else
      let star := hipUpdateStar cosd { hipNum := some row.hipNum } vmag ra de pmra pmde
      let a := s.addedStars + 1
      let key := s.highestFK5 + a
      .next { s with addedStars := a
                     fk5Index := upd s.fk5Index key (some star)
                     totalHIP := s.totalHIP + 1
                     highestHIP := key
                     highestStar := key }

/-- The row loop of stage 4 (app.ts lines 405-466); `none` when a row throws. -/
def processHipparcosRows (cosd : ℚ → ℚ) (s : PState) : List HipRow → Option PState
  | [] => some s
  | row :: rest =>
    match hipRowStep cosd s row with
    | .next s' => processHipparcosRows cosd s' rest
    | .stop s' => some s'
    | .crash => none

/-- The trailing Pleiades insertion of stage 4 (app.ts lines 468-472). -/
def addPleiades (s : PState) : PState :=
  match s.pleiades with
  | none => s
  | some p =>
    { s with totalDSO := s.totalDSO + 1
             fk5Index := upd s.fk5Index (s.highestStar + (s.totalDSO + 1)) (some p) }

/-- Stage 4, `processHipparcosStarCatalog` (app.ts lines 402-473). -/
def processHipparcosStarCatalog (cosd : ℚ → ℚ) (s : PState) (rows : List HipRow) :
    Option PState :=
  (processHipparcosRows cosd s rows).map addPleiades

/-- The transient per-object record built by `processNgcNames` (types.ts). -/
structure NGCMatchInfo where
  ngcIcNum : Int
  messierNum : Nat
  name : String
  deriving Repr, DecidableEq

/-- One data row of ngc2000.dat, by the pipe-separated parts that
`processNgcData` extracts (app.ts lines 554-589).  `vmag` is the value of
`toNumber(parts[7], 1000)`: the parsed magnitude, or `1000` when blank. -/
structure NgcRow where
  ngcIcNum : Int
  vmag : ℚ
  raHours : ℚ
  raMins : ℚ
  deNeg : Bool
  deDegs : ℚ
  deMins : ℚ
  constellationStr : String
  deriving Repr

/-- One iteration of the NGC data loop (app.ts lines 546-593).  The parser
assigns no proper-motion fields to the records it creates. -/
def processNgcDataStep (ngcs : Int → Option NGCMatchInfo) (s : PState) (row : NgcRow) :
    PState :=
  let info := ngcs row.ngcIcNum
  if info = none ∧ 6 < row.vmag then s
  else
    let star : StarInfo :=
      { fk5Num := some 0
        bscNum := some 0
        ngcIcNum := some row.ngcIcNum
        vmag := some row.vmag
        messierNum := some (match info with | some i => i.messierNum | none => 0)
        name := match info with | some i => some i.name | none => none
        RA := some (row.raHours + row.raMins / 60)
        DE := some ((row.deDegs + row.deMins / 60) * (if row.deNeg then -1 else 1))
        constellation :=
          some ((jsIndexOf constellationCodes (jsToLower row.constellationStr) + 1).toNat) }
    { s with totalDSO := s.totalDSO + 1
             fk5Index := upd s.fk5Index (s.highestStar + (s.totalDSO + 1)) (some star) }

/-- Stage 5, `processNgcData` (app.ts lines 539-594), taking the name-info
table built by `processNgcNames` as input. -/
def processNgcData (ngcs : Int → Option NGCMatchInfo) (s : PState) (ls : List NgcRow) :
    PState :=
  ls.foldl (processNgcDataStep ngcs) s

/-- The magnitude quantization of the writer (app.ts lines 658-659):
`floor((vmag + 2.0) * 10.0 + 0.5)` clamped into `[0, 255]`. -/
def compressedMagOf (v : ℚ) : Int := min (max ⌊(v + 2) * 10 + mkRat 1 2⌋ 0) 255

/-- The block-dependent trailer of a serialized record (app.ts lines 662-671). -/
inductive WTrailer where
  | dso (ngcIcNum : Int) (messier : Nat)
  | hip (hi lo : Nat)
  | bsc (num : Nat)
  | prim
  deriving DecidableEq, Repr

/-- The per-record serialized fields, in the order the writer emits them
(app.ts lines 642-679).  Numeric object fields still `undefined` at write time
serialize as zero. -/
structure RecOut where
  flamsteed : Nat
  bayerRank : Nat
  subIndex : Nat
  constellation : Nat
  ra : ℚ
  de : ℚ
  pmRA : ℚ
  pmDE : ℚ
  magByte : Int
  trailer : WTrailer
  nameLen : Nat
  nameStr : String
  deriving DecidableEq, Repr

/-- Serialization of one record at registry key `i` (app.ts lines 642-679).
`star.pmRA || 0` and `star.pmDE || 0` substitute `0` for a missing value; the
trailer depends on which block `i` belongs to; a falsy name writes length 0. -/
def recOutOf (s : PState) (i : Nat) (star : StarInfo) : RecOut :=
  { flamsteed := star.flamsteed.getD 0
    bayerRank := star.bayerRank.getD 0
    subIndex := star.subIndex.getD 0
    constellation := star.constellation.getD 0
    ra := star.RA.getD 0
    de := star.DE.getD 0
    pmRA := star.pmRA.getD 0
    pmDE := star.pmDE.getD 0
    magByte := match star.vmag with | some v => compressedMagOf v | none => 0
    trailer :=
      if s.highestStar < i then .dso (star.ngcIcNum.getD 0) (star.messierNum.getD 0)
      else if 0 < s.highestBSC ∧ s.highestBSC < i then
        .hip (star.hipNum.getD 0 / 65536) (star.hipNum.getD 0 % 65536)
      else if s.highestFK5 < i then .bsc (star.bscNum.getD 0)
      else .prim
    nameLen := match star.name with | some n => n.utf8ByteSize | none => 0
    nameStr := match star.name with | some n => n | none => "" }

/-- One item of the serialized output stream: the double-precision flag byte
`0xFD`, a gap byte `0xFF`, a category-advance marker byte `0xFE`, or one
record. -/
inductive WItem where
  | fd
  | gap
  | marker
  | record (r : RecOut)
  deriving DecidableEq, Repr

/-- The category-advance marker bytes emitted before the record at key `i`
(app.ts lines 626-635). -/
def markersAt (s : PState) (i : Nat) : List WItem :=
  if i = s.highestFK5 + 1 ∨ (0 < s.highestBSC ∧ i = s.highestBSC + 1) ∨
      i = s.highestStar + 1 then
    WItem.marker :: (if i = s.highestStar + 1 ∧ s.highestHIP = 0 then [WItem.marker] else [])
  else []

/-- The writer loop of `writeStarCatalog` (app.ts lines 609-682) over a list of
keys, carrying the running `gapSize`: a missing key within the primary block
grows the pending gap, a missing key outside it throws (`star.vmag` on
`undefined`), and a present key first flushes the pending gap bytes, then the
markers, then the record. -/
def writeStarCatalogAux (s : PState) : List Nat → Nat → Option (List WItem)
  | [], _ => some []
  | i :: rest, gapSize =>
    match s.fk5Index i with
    | none =>
      if i ≤ s.highestFK5 then writeStarCatalogAux s rest (gapSize + 1)
      else none
    | some star =>
      (writeStarCatalogAux s rest 0).map
        (fun out => List.replicate gapSize WItem.gap ++ markersAt s i ++
          (WItem.record (recOutOf s i star) :: out))

/-- Stage 6, `writeStarCatalog` (app.ts lines 596-686): iterate the registry
keys `1 .. highestStar + totalDSO` in order, with the optional leading `0xFD`
byte. -/
def writeStarCatalog (doDoublePrecision : Bool) (s : PState) : Option (List WItem) :=
  (writeStarCatalogAux s (List.range' 1 (s.highestStar + s.totalDSO)) 0).map
    (fun out => (if doDoublePrecision then [WItem.fd] else []) ++ out)

/-- Canonical per-key output: one gap byte for a missing primary-block key,
markers plus the record for a present key.  (For a missing key outside the
primary block the writer throws; the value here is immaterial.) -/
def perKeyOut (s : PState) (i : Nat) : List WItem :=
  match s.fk5Index i with
  | none => if i ≤ s.highestFK5 then [WItem.gap] else []
  | some star => markersAt s i ++ [WItem.record (recOutOf s i star)]

/-- Concatenation of the canonical per-key outputs over a list of keys. -/
def catOut (s : PState) : List Nat → List WItem
  | [] => []
  | i :: rest => perKeyOut s i ++ catOut s rest

/-- Priority order in which a Hipparcos row resolves to an existing registry
key (app.ts lines 431-443): the primary cross-reference first, then the
bright-star one through the alias table. -/
def hipResolveKey (s : PState) (row : HipRow) : Option Nat :=
  if 0 < hipResolveFk5 s row then some (hipResolveFk5 s row)
  else if 0 < hipResolveBsc s row then s.bscKey (hipResolveBsc s row)
  else none

theorem upd_same {α : Type} (f : Nat → Option α) (k : Nat) (v : Option α) : upd f k v k = v := by
  simp [upd]

theorem upd_ne {α : Type} (f : Nat → Option α) (k x : Nat) (v : Option α) (h : x ≠ k) :
    upd f k v x = f x := by
  simp [upd, h]

/-- C4: the writer encodes the magnitude byte of every record carrying a
magnitude as `clamp(round((mag + 2.0) * 10), 0, 255)`; magnitude `-1.5`
(= -3/2) encodes to byte 5 and magnitude 30.0 clamps to 255. -/
theorem magnitude_quantization :
    (∀ v : ℚ, compressedMagOf v = max 0 (min 255 (round ((v + 2) * 10)))) ∧
    (∀ (s : PState) (i : Nat) (star : StarInfo) (v : ℚ), star.vmag = some v →
      (recOutOf s i star).magByte = max 0 (min 255 (round ((v + 2) * 10)))) ∧
    compressedMagOf (-3/2) = 5 ∧ compressedMagOf 30 = 255 := by
  have hhalf : (mkRat 1 2 : ℚ) = 1 / 2 := by rw [Rat.mkRat_eq_div]; norm_num
  have key : ∀ v : ℚ, compressedMagOf v = max 0 (min 255 (round ((v + 2) * 10))) := by
    intro v
    unfold compressedMagOf
    rw [round_eq, hhalf]
    generalize ⌊(v + 2) * 10 + 1 / 2⌋ = n
    omega
  refine ⟨key, ?_, by norm_num [compressedMagOf, hhalf], by norm_num [compressedMagOf, hhalf]⟩
  intro s i star v hv
  simp only [recOutOf, hv]
  exact key v

/-- C4 witness: the per-record serializer at a concrete star of magnitude -3/2. -/
theorem magnitude_quantization_witness :
    ({ vmag := some (-3/2) } : StarInfo).vmag = some (-3/2) ∧
    (recOutOf {} 1 { vmag := some (-3/2) }).magByte =
      max 0 (min 255 (round (((-3/2 : ℚ) + 2) * 10))) :=
  ⟨rfl, magnitude_quantization.2.1 {} 1 { vmag := some (-3/2) } (-3/2) rfl⟩

/-- Bright-star line used to refute claim C2: Bayer rank 5 (name-field columns
3-6 hold `eps`), magnitude 6.4 (the rational 32/5, written in reducible
`mkRat` form), id 100 not in the legacy list, no explicit primary id. -/
def bayerCexLine : BSCLine :=
  { bscNum := 100, nameField := "   eps ori", fk5Field := "    ", fk5Num := 0,
    vmagStr := some (mkRat 32 5), hd := 0, raHours := 5, raMins := 0, raSecs := 0, deNeg := false,
    deDegs := 10, deMins := 0, deSecs := 0, pmRAraw := 0, pmDEraw := 0, flamsteedNum := 0,
    subIndexNum := 0 }

/-- State in which `bayerCexLine` is processed by pass 2: its id was seen in
pass 1 (provisional 0 entry) and the primary block ends at key 1. -/
def bayerCexState : PState :=
  { bsc2fk5 := fun b => if b = 100 then some 0 else none, highestFK5 := 1, highestStar := 1 }

/-- C2 counterexample: a record with Bayer rank 5 and magnitude 6.4 — above the
general ceiling and outside the legacy list — is ACCEPTED by pass 2 (a new
registry record appears at key 2), while the claim says every such record is
excluded. -/
theorem bright_star_bayer_acceptance_counterexample :
    bayerRankOf bayerCexLine.nameField = 5 ∧
    bayerCexLine.vmagStr = some (32/5) ∧ magLimitBSC < 32/5 ∧
    bayerCexLine.bscNum ∉ bscExtras ∧
    ((pass2Step (fun q => q) bayerCexState bayerCexLine).fk5Index 2).isSome = true := by
  refine ⟨by decide, ?_, by norm_num [magLimitBSC], by decide, by decide⟩
  show some (mkRat 32 5) = some (32/5)
  rw [Rat.mkRat_eq_div]
  norm_num

/-- C2 (amended): a record whose magnitude exceeds the general bright-star
ceiling and whose id is not in the legacy inclusion list is accepted by Bayer
rank exactly when its rank is in the top 13 with magnitude at most 6.0, or in
the top 7 with magnitude at most 6.5; in particular both the rank-5 record of
magnitude 6.4 and the one of magnitude 5.9 are included. -/
theorem bright_star_bayer_acceptance :
    (∀ (bscNum bayerRank : Nat) (vmag : ℚ), magLimitBSC < vmag → bscNum ∉ bscExtras →
      (bscAccept bscNum bayerRank vmag ↔
        (0 < bayerRank ∧ ((bayerRank < 14 ∧ vmag ≤ 6) ∨ (bayerRank < 8 ∧ vmag ≤ 13/2))))) ∧
    bscAccept 100 5 (32/5) ∧ bscAccept 100 5 (59/10) := by
  have h132 : (mkRat 13 2 : ℚ) = 13 / 2 := by rw [Rat.mkRat_eq_div]; norm_num
  refine ⟨?_, ?_, ?_⟩
  · intro bscNum bayerRank vmag hmag hextra
    unfold bscAccept
    rw [h132]
    constructor
    · rintro (h | h | h)
      · exact absurd h (not_le.mpr hmag)
      · exact absurd h hextra
      · exact h
    · intro h
      exact Or.inr (Or.inr h)
  · exact Or.inr (Or.inr ⟨by norm_num, Or.inr ⟨by norm_num, by rw [h132]; norm_num⟩⟩)
  · exact Or.inl (by norm_num [magLimitBSC])

/-- C2 witness: the amended tier characterization evaluated at rank 5,
magnitude 6.4. -/
theorem bright_star_bayer_acceptance_witness :
    magLimitBSC < (32/5 : ℚ) ∧ (100 ∉ bscExtras) ∧
    (bscAccept 100 5 (32/5) ↔
      (0 < 5 ∧ ((5 < 14 ∧ (32/5 : ℚ) ≤ 6) ∨ (5 < 8 ∧ (32/5 : ℚ) ≤ 13/2)))) :=
  ⟨by norm_num [magLimitBSC], by decide,
    bright_star_bayer_acceptance.1 100 5 (32/5) (by norm_num [magLimitBSC]) (by decide)⟩

/-- The name-rejection rule exactly as claim C8 states it: a digit anywhere, or
a single lowercase letter optionally followed by one more lowercase letter
(any lowercase letter) and then a space. -/
def specRejectName (s : String) : Bool :=
  s.toList.any isDigitCh ||
  (match s.toList with
   | c1 :: c2 :: rest =>
     isLowerCh c1 && (c2 = ' ' || (isLowerCh c2 && rest.head? = some ' '))
   | _ => false)

/-- The rejection rule with the second-letter class corrected to exclude the
letter `l`, matching the regex class `[a-km-z]` of the source. -/
def specRejectNameAmended (s : String) : Bool :=
  s.toList.any isDigitCh ||
  (match s.toList with
   | c1 :: c2 :: rest =>
     isLowerCh c1 && (c2 = ' ' || ((isLowerCh c2 && !(c2 = 'l')) && rest.head? = some ' '))
   | _ => false)

theorem kmz_class_eq (c : Char) :
    ((97 ≤ c.toNat && c.toNat ≤ 107) || (109 ≤ c.toNat && c.toNat ≤ 122)) =
      (isLowerCh c && !(c = 'l')) := by
  have hl : (c = 'l') ↔ c.toNat = 108 := by
    constructor
    · rintro rfl; rfl
    · intro h
      have h2 := Char.ofNat_toNat c
      rw [h] at h2
      exact h2.symm
  unfold isLowerCh
  rw [Bool.eq_iff_iff]
  simp only [Bool.or_eq_true, Bool.and_eq_true, Bool.not_eq_true', decide_eq_true_eq,
    decide_eq_false_iff_not, hl]
  omega

/-- C8 counterexample: the candidate proper name `al Persei` begins with a
lowercase letter followed by one more lowercase letter and a space, so the
claim says it is rejected; the source regex class `[a-km-z]` omits `l`, so the
loader accepts it and stores it in mixed case. -/
theorem name_filtering_counterexample :
    specRejectName "al Persei" = true ∧ fk5NamesToSkip "al Persei" = false ∧
    fk5NameOf "al Persei" = some "Al Persei" :=
  ⟨by decide, by decide, by decide⟩

/-- C8 (amended): the primary loader rejects a candidate name exactly when it
contains a digit, or begins with one lowercase letter optionally followed by
one more lowercase letter OTHER THAN `l` and then a space; accepted names are
stored in title case; `12 Persei` and `b Persei` are rejected and `Polaris` is
stored as `Polaris`. -/
theorem name_filtering :
    (∀ s : String, fk5NamesToSkip s = specRejectNameAmended s) ∧
    (∀ s : String, jsTrim s = s → s ≠ "" → ';' ∉ s.toList →
      fk5NamesToSkip s = false → fk5NameOf s = some (toMixedCase s)) ∧
    fk5NameOf "12 Persei" = none ∧ fk5NameOf "b Persei" = none ∧
    fk5NameOf "Polaris" = some "Polaris" := by
  refine ⟨?_, ?_, by decide, by decide, by decide⟩
  · intro s
    unfold fk5NamesToSkip specRejectNameAmended
    cases h : s.toList with
    | nil => rfl
    | cons c1 tl =>
      cases tl with
      | nil => rfl
      | cons c2 rest =>
        dsimp only
        rw [kmz_class_eq c2]
  · intro s hts hne hsemi hskip
    have hsemi' : ';' ∉ s.data := hsemi
    simp [fk5NameOf, hts, hsemi', hne, hskip]


/-- C8 witness: the accepted-name path of the amended statement evaluated at
`Polaris`. -/
theorem name_filtering_witness :
    jsTrim "Polaris" = "Polaris" ∧ fk5NameOf "Polaris" = some (toMixedCase "Polaris") :=
  ⟨by decide, name_filtering.2.1 "Polaris" (by decide) (by decide) (by decide) (by decide)⟩

/-- C3: for a pair of consecutive bright-star lines with the same non-blank
name field (the previous line not itself opening a duplicate pair, distinct
bright-star ids, both magnitudes present), exactly one id survives pass 1: the
one of the line with the smaller magnitude, the earlier line on a tie, and the
survivor's table entry carries the maximum of the two clipped primary ids. -/
theorem bright_star_dedup (F : Nat) (m : Nat → Option Nat) (loc : P1Loc) (L1 L2 : BSCLine)
    (hname : L2.nameField = L1.nameField) (hnb : jsTrim L1.nameField ≠ "")
    (hprev : loc.lastName ≠ L1.nameField) (hb : L1.bscNum ≠ L2.bscNum)
    (m1 m2 : ℚ) (hv1 : L1.vmagStr = some m1) (hv2 : L2.vmagStr = some m2) :
    ((pass1Step F (pass1Step F (m, loc) L1) L2).1 L1.bscNum,
      (pass1Step F (pass1Step F (m, loc) L1) L2).1 L2.bscNum) =
      if m1 ≤ m2 then
        (some (max (clipFK5 F L1.fk5Num) (clipFK5 F L2.fk5Num)), none)
      else
        (none, some (max (clipFK5 F L1.fk5Num) (clipFK5 F L2.fk5Num))) := by
  have step1 : pass1Step F (m, loc) L1 =
      (upd m L1.bscNum (some 0),
       { lastBSC := L1.bscNum, lastFK5 := clipFK5 F L1.fk5Num, lastName := L1.nameField,
         lastMag := m1 }) := by
    simp only [pass1Step, hv1]
    rw [if_neg]
    rintro ⟨h1, -⟩
    exact hprev h1.symm
  rw [step1]
  simp only [pass1Step, hv2]
  rw [if_pos ⟨by rw [hname], by rw [hname]; exact hnb⟩]
  by_cases hm : m1 ≤ m2
  · rw [if_pos hm, if_pos hm]
    refine Prod.ext ?_ ?_
    · show upd _ L2.bscNum none L1.bscNum = _
      rw [upd_ne _ _ _ _ hb, upd_ne _ _ _ _ hb, upd_same]
    · show upd _ L2.bscNum none L2.bscNum = _
      rw [upd_same]
  · rw [if_neg hm, if_neg hm]
    refine Prod.ext ?_ ?_
    · show upd _ L1.bscNum none L1.bscNum = _
      rw [upd_same]
    · show upd _ L1.bscNum none L2.bscNum = _
      rw [upd_ne _ _ _ _ (Ne.symm hb), upd_same]

/-- First line of the C3 witness pair: magnitude 3.0. -/
def dedupLine1 : BSCLine :=
  { bscNum := 1001, nameField := "  1alp and", fk5Field := "", fk5Num := 0, vmagStr := some 3,
    hd := 0, raHours := 0, raMins := 0, raSecs := 0, deNeg := false, deDegs := 0, deMins := 0,
    deSecs := 0, pmRAraw := 0, pmDEraw := 0, flamsteedNum := 1, subIndexNum := 0 }

/-- Second line of the C3 witness pair: same name field, magnitude 4.5 (the
rational 9/2 in reducible `mkRat` form). -/
def dedupLine2 : BSCLine :=
  { dedupLine1 with bscNum := 1002, vmagStr := some (mkRat 9 2) }

/-- C3 witness: on the 3.0 / 4.5 pair of the claim, the earlier (brighter) line
survives with entry `some 0` in the table and the later one is gone. -/
theorem bright_star_dedup_witness :
    ((pass1Step 5 (pass1Step 5 ((fun _ => none : Nat → Option Nat), ({} : P1Loc)) dedupLine1)
        dedupLine2).1 dedupLine1.bscNum,
      (pass1Step 5 (pass1Step 5 ((fun _ => none : Nat → Option Nat), ({} : P1Loc)) dedupLine1)
        dedupLine2).1 dedupLine2.bscNum) =
      (some (max (clipFK5 5 dedupLine1.fk5Num) (clipFK5 5 dedupLine2.fk5Num)), none) :=
  bright_star_dedup 5 (fun _ => none) {} dedupLine1 dedupLine2 rfl (by decide) (by decide)
    (by decide) 3 (mkRat 9 2) rfl rfl

/-- Primary-catalog line seeding the failing scenario for claim C9. -/
def notesCexFK5Line : FK5Line :=
  { fk5Num := 1, raHours := 0, raMins := 0, raSecs := 0, pmRA := 0, deNeg := false,
    deDegs := 0, deMins := 0, deSecs := 0, pmDE := 0, vmag := 2, hd := none,
    bayerFlamsteed := "", bayerFlamsteedNum := 0, subIndexNum := 0, constellationStr := "",
    rawName := "" }

/-- First of two consecutive bright-star lines sharing a name field
(magnitude 3): this one survives pass 1. -/
def notesCexBSC1 : BSCLine :=
  { bscNum := 1001, nameField := "  1alp and", fk5Field := "", fk5Num := 0, vmagStr := some 3,
    hd := 0, raHours := 0, raMins := 0, raSecs := 0, deNeg := false, deDegs := 0, deMins := 0,
    deSecs := 0, pmRAraw := 0, pmDEraw := 0, flamsteedNum := 1, subIndexNum := 0 }

/-- Second bright-star line of the pair (magnitude 5): removed from the
`bsc2fk5` table as a duplicate. -/
def notesCexBSC2 : BSCLine :=
  { notesCexBSC1 with bscNum := 1002, vmagStr := some 5 }

/-- The registry state after stages 1-2 of the C9 scenario. -/
def notesCexState : PState :=
  processYaleBrightStarCatalog (fun q => q) (processCrossIndex {} [notesCexFK5Line])
    [notesCexBSC1, notesCexBSC2]

/-- Notes line for the duplicate-removed bright-star id 1002, carrying the
primary-name code `1N:` and a name matching the extraction pattern. -/
def notesCexLine : NotesLine :=
  { bscNum := 1002, codeField := " 1N:  ", rest := "SOME NAME; text" }

/-- C9 (code bug): a notes line for a bright-star id that pass 1 removed from
the cross-reference table as a duplicate passes the `=== 0` gate (the entry is
absent, not zero), and the annotator then dereferences a missing registry
record — the stage throws, while the claim says the write never dereferences a
missing record.  The surviving duplicate 1001 maps to registry key 2 as usual. -/
theorem notes_missing_entry_crash :
    notesCexState.bsc2fk5 1001 = some 2 ∧
    notesCexState.bsc2fk5 1002 = none ∧
    notesNameOf notesCexLine.rest = some "SOME NAME" ∧
    processYaleBrightStarCatalogNotes notesCexState [notesCexLine] = none := by
  refine ⟨by decide, by decide, by decide, ?_⟩
  exact Option.isNone_iff_eq_none.mp (by decide)

/-- C10: every record created by the NGC position-index parser has no
proper-motion fields assigned, and the writer serializes both proper motions
of such a record as the value 0. -/
theorem ngc_zero_proper_motion (ngcs : Int → Option NGCMatchInfo) (s : PState) (row : NgcRow)
    (hacc : ¬(ngcs row.ngcIcNum = none ∧ 6 < row.vmag)) :
    ∃ r : StarInfo,
      (processNgcDataStep ngcs s row).fk5Index (s.highestStar + (s.totalDSO + 1)) = some r ∧
      r.pmRA = none ∧ r.pmDE = none ∧
      ∀ (s' : PState) (i : Nat), (recOutOf s' i r).pmRA = 0 ∧ (recOutOf s' i r).pmDE = 0 := by
  simp only [processNgcDataStep]
  rw [if_neg hacc]
  exact ⟨_, upd_same _ _ _, rfl, rfl, fun s' i => ⟨rfl, rfl⟩⟩

/-- Accepted NGC row used by the C10 witness (magnitude 4, no name-info entry). -/
def ngcWitnessRow : NgcRow :=
  { ngcIcNum := 224, vmag := 4, raHours := 0, raMins := 10, deNeg := false, deDegs := 41,
    deMins := 0, constellationStr := "and" }

/-- C10 witness: the parser run from the empty state on a concrete accepted row. -/
theorem ngc_zero_proper_motion_witness :
    ∃ r : StarInfo,
      (processNgcDataStep (fun _ => none) {} ngcWitnessRow).fk5Index
        (({} : PState).highestStar + (({} : PState).totalDSO + 1)) = some r ∧
      r.pmRA = none ∧ r.pmDE = none ∧
      ∀ (s' : PState) (i : Nat), (recOutOf s' i r).pmRA = 0 ∧ (recOutOf s' i r).pmDE = 0 :=
  ngc_zero_proper_motion (fun _ => none) {} ngcWitnessRow (by decide)

/-- C7: a Hipparcos data row that resolves through the cross-reference tables
to an existing registry record (with a present magnitude) updates that record
in place: the magnitude becomes the minimum of old and new, while position and
both proper motions are overwritten with the row's converted values, the
proper-motion right ascension divided by the cosine of the (new) declination. -/
theorem hipparcos_override (cosd : ℚ → ℚ) (s : PState) (row : HipRow) (k : Nat)
    (old : StarInfo) (w ra de vmag pmra pmde : ℚ)
    (hhip : ¬row.hipNum = 0)
    (hra : row.raStr = some ra) (hde : row.deStr = some de) (hvm : row.vmagStr = some vmag)
    (hpra : row.pmRAStr = some pmra) (hpde : row.pmDEStr = some pmde)
    (hres : hipResolveKey s row = some k)
    (hold : s.fk5Index k = some old) (hw : old.vmag = some w) :
    ∃ s', hipRowStep cosd s row = .next s' ∧
      s'.fk5Index k = some
        { old with
            vmag := some (min vmag w)
            RA := some (ra / 15)
            DE := some de
            pmRA := some (pmra * mkRat 66667 10000000 / cosd de)
            pmDE := some (pmde / 10) } := by
  have hstar : hipUpdateStar cosd old vmag ra de pmra pmde =
      { old with
          vmag := some (min vmag w)
          RA := some (ra / 15)
          DE := some de
          pmRA := some (pmra * mkRat 66667 10000000 / cosd de)
          pmDE := some (pmde / 10) } := by
    unfold hipUpdateStar
    rw [hw]
    rfl
  unfold hipRowStep
  rw [if_neg hhip, if_neg (by simp [hra, hde, hvm, hpra, hpde])]
  simp only [hra, hde, hvm, hpra, hpde, Option.getD_some]
  unfold hipResolveKey at hres
  by_cases hf : 0 < hipResolveFk5 s row
  · rw [if_pos hf] at hres
    obtain rfl : hipResolveFk5 s row = k := Option.some_injective _ hres
    simp only [hold, if_pos hf]
    exact ⟨_, rfl, by simp only [upd_same, hstar]⟩
  · rw [if_neg hf] at hres
    simp only [if_neg hf]
    by_cases hbsc : 0 < hipResolveBsc s row
    · rw [if_pos hbsc] at hres
      simp only [if_pos hbsc, hres, hold]
      exact ⟨_, rfl, by simp only [upd_same, hstar]⟩
    · rw [if_neg hbsc] at hres
      exact absurd hres (by simp)

/-- Registry state for the C7 witness: key 3 holds a star of magnitude 4,
reachable from HD number 7 through the primary cross-reference table. -/
def hipWitnessState : PState :=
  { fk5Index := fun k => if k = 3 then some { vmag := some 4 } else none,
    hd2fk5 := fun h => if h = 7 then some 3 else none,
    highestFK5 := 3, highestStar := 3 }

/-- Hipparcos row for the C7 witness: HD 7, magnitude 5 (dimmer than the
existing 4), new position and proper motions. -/
def hipWitnessRow : HipRow :=
  { hipNum := 10, hdNum := 7, vmagStr := some 5, raStr := some 30, deStr := some 0,
    pmRAStr := some 2, pmDEStr := some 4 }

theorem writeStarCatalogAux_eq_catOut (s : PState) :
    ∀ (ks : List Nat) (g : Nat),
      (∀ k ∈ ks, k ≤ s.highestFK5 ∨ (s.fk5Index k).isSome) →
      (ks = [] → g = 0) →
      (∀ p, ks.getLast? = some p → (s.fk5Index p).isSome) →
      writeStarCatalogAux s ks g = some (List.replicate g WItem.gap ++ catOut s ks)
  | [], g, _, h0, _ => by
    rw [h0 rfl]
    rfl
  | i :: rest, g, hsafe, _, hlast => by
    unfold writeStarCatalogAux
    cases hidx : s.fk5Index i with
    | none =>
      have hile : i ≤ s.highestFK5 := by
        rcases hsafe i (List.mem_cons_self i rest) with h | h
        · exact h
        · rw [hidx] at h
          simp at h
      rw [if_pos hile]
      cases rest with
      | nil =>
        have := hlast i rfl
        rw [hidx] at this
        simp at this
      | cons b tl =>
        rw [writeStarCatalogAux_eq_catOut s (b :: tl) (g + 1)
          (fun k hk => hsafe k (List.mem_cons_of_mem _ hk)) (by simp)
          (fun p hp => hlast p (by rw [List.getLast?_cons_cons]; exact hp))]
        show _ = some (List.replicate g WItem.gap ++ (perKeyOut s i ++ catOut s (b :: tl)))
        unfold perKeyOut
        rw [hidx, if_pos hile, List.replicate_succ' g]
        simp [List.append_assoc]
    | some star =>
      rw [writeStarCatalogAux_eq_catOut s rest 0
        (fun k hk => hsafe k (List.mem_cons_of_mem _ hk)) (fun _ => rfl)
        (fun p hp => by
          cases rest with
          | nil => exact absurd hp (by simp)
          | cons b tl => exact hlast p (by rw [List.getLast?_cons_cons]; exact hp))]
      show _ = some (List.replicate g WItem.gap ++ (perKeyOut s i ++ catOut s rest))
      unfold perKeyOut
      rw [hidx]
      simp [Option.map, List.append_assoc]

/-- The final registry key `highestStar + totalDSO` as handled by the writer. -/
def finalKey (s : PState) : Nat := s.highestStar + s.totalDSO

/-- Density of the registry above the primary block, phrased over the key
range the writer iterates (decidable at concrete states). -/
def DenseAbovePrimary (s : PState) : Prop :=
  ∀ k ∈ List.range' (s.highestFK5 + 1) (finalKey s - s.highestFK5), (s.fk5Index k).isSome

instance (s : PState) : Decidable (DenseAbovePrimary s) := by
  unfold DenseAbovePrimary
  infer_instance

theorem dense_above_primary_isSome (s : PState) (hd : DenseAbovePrimary s) (k : Nat)
    (h1 : s.highestFK5 < k) (h2 : k ≤ finalKey s) : (s.fk5Index k).isSome := by
  apply hd
  rw [List.mem_range'_1]
  omega

theorem writeStarCatalog_eq_catOut (s : PState)
    (hlt : s.highestFK5 < finalKey s) (hdense : DenseAbovePrimary s) :
    writeStarCatalog false s = some (catOut s (List.range' 1 (finalKey s))) := by
  have hfin : finalKey s = s.highestStar + s.totalDSO := rfl
  unfold writeStarCatalog
  rw [writeStarCatalogAux_eq_catOut s (List.range' 1 (s.highestStar + s.totalDSO)) 0
    ?safe ?zero ?last]
  · simp [finalKey]
  case safe =>
    intro k hk
    rw [List.mem_range'_1] at hk
    rcases le_or_lt k s.highestFK5 with h | h
    · exact Or.inl h
    · exact Or.inr (dense_above_primary_isSome s hdense k h (by omega))
  case zero => intro _; rfl
  case last =>
    intro p hp
    have hN : s.highestStar + s.totalDSO = (s.highestStar + s.totalDSO - 1) + 1 := by omega
    rw [hN, List.range'_concat] at hp
    rw [List.getLast?_concat] at hp
    have hp2 : p = s.highestStar + s.totalDSO := by
      have := Option.some_injective _ hp.symm
      omega
    subst hp2
    exact dense_above_primary_isSome s hdense _ (by omega) (by omega)

/-- C5: given the pipeline guarantees (every key after the primary block holds
a record, and at least one key follows the primary block), the serialized
stream equals the canonical per-key concatenation over keys `1..final`; the
per-key output of a missing primary-block key is exactly one 0xFF gap byte,
and a gap byte occurs in a per-key output only for a missing primary-block
key.  In particular, a missing id strictly between present ids contributes one
0xFF at its own position of the stream. -/
theorem writer_gap_bytes (s : PState)
    (hlt : s.highestFK5 < finalKey s) (hdense : DenseAbovePrimary s) :
    writeStarCatalog false s = some (catOut s (List.range' 1 (finalKey s))) ∧
    (∀ i, s.fk5Index i = none → i ≤ s.highestFK5 → perKeyOut s i = [WItem.gap]) ∧
    (∀ i, WItem.gap ∈ perKeyOut s i → s.fk5Index i = none ∧ i ≤ s.highestFK5) := by
  refine ⟨writeStarCatalog_eq_catOut s hlt hdense, ?_, ?_⟩
  · intro i h1 h2
    unfold perKeyOut
    rw [h1, if_pos h2]
  · intro i hg
    unfold perKeyOut at hg
    cases hidx : s.fk5Index i with
    | none =>
      rw [hidx] at hg
      by_cases hile : i ≤ s.highestFK5
      · exact ⟨rfl, hile⟩
      · rw [if_neg hile] at hg
        simp at hg
    | some star =>
      rw [hidx] at hg
      unfold markersAt at hg
      split at hg <;> simp_all

/-- Registry used as the C5 witness: primary block `1..3` with key 2 missing,
one bright-star addition at key 4. -/
def gapWitnessIdx : Nat → Option StarInfo :=
  fun k => if k = 1 ∨ k = 3 ∨ k = 4 then some {} else none

/-- Witness state for C5. -/
def gapWitnessState : PState :=
  { fk5Index := gapWitnessIdx, highestFK5 := 3, highestBSC := 4, highestStar := 4 }

/-- C5 witness: the writer on a concrete registry with a gap at key 2. -/
theorem writer_gap_bytes_witness :
    writeStarCatalog false gapWitnessState =
      some (catOut gapWitnessState (List.range' 1 (finalKey gapWitnessState))) ∧
    (∀ i, gapWitnessState.fk5Index i = none → i ≤ gapWitnessState.highestFK5 →
      perKeyOut gapWitnessState i = [WItem.gap]) ∧
    (∀ i, WItem.gap ∈ perKeyOut gapWitnessState i →
      gapWitnessState.fk5Index i = none ∧ i ≤ gapWitnessState.highestFK5) :=
  writer_gap_bytes gapWitnessState (by decide) (by decide)

/-- Shape of the block counters guaranteed by the pipeline: a non-zero
bright-star high mark lies above the primary block, a non-zero astrometry high
mark above both, and `highestStar` is the end of the stellar blocks. -/
def BlockShape (s : PState) : Prop :=
  (s.highestBSC = 0 ∨ s.highestFK5 < s.highestBSC) ∧
  (s.highestHIP = 0 ∨ max s.highestFK5 s.highestBSC < s.highestHIP) ∧
  s.highestStar = max (max s.highestFK5 s.highestBSC) s.highestHIP

instance (s : PState) : Decidable (BlockShape s) := by
  unfold BlockShape
  infer_instance

/-- C6: under the pipeline guarantees, the serialized stream is the canonical
per-key concatenation, and the number of 0xFE marker bytes emitted just before
the record at key `i` is one when `i` follows a block boundary (the end of the
primary block; the end of the bright-star block when that block is non-empty;
the end of all stellar blocks) and zero otherwise, plus one extra marker at
the end-of-stellar boundary exactly when the astrometry block is empty. -/
theorem writer_marker_bytes (s : PState) (hshape : BlockShape s)
    (hlt : s.highestFK5 < finalKey s) (hdense : DenseAbovePrimary s) :
    writeStarCatalog false s = some (catOut s (List.range' 1 (finalKey s))) ∧
    (∀ i ∈ List.range' 1 (finalKey s),
      (perKeyOut s i).count WItem.marker =
        (if i = s.highestFK5 + 1 ∨ (0 < s.highestBSC ∧ i = s.highestBSC + 1) ∨
            i = max (max s.highestFK5 s.highestBSC) s.highestHIP + 1 then 1 else 0) +
        (if i = max (max s.highestFK5 s.highestBSC) s.highestHIP + 1 ∧ s.highestHIP = 0
          then 1 else 0)) := by
  obtain ⟨hb, hh, hstar⟩ := hshape
  refine ⟨writeStarCatalog_eq_catOut s hlt hdense, ?_⟩
  intro i hi
  rw [List.mem_range'_1] at hi
  rw [← hstar]
  unfold perKeyOut
  cases hidx : s.fk5Index i with
  | none =>
    have hile : i ≤ s.highestFK5 := by
      by_contra hc
      have := dense_above_primary_isSome s hdense i (by omega) (by omega)
      rw [hidx] at this
      simp at this
    rw [if_pos hile]
    have hbb : 0 < s.highestBSC → s.highestFK5 < s.highestBSC := by
      rcases hb with h | h
      · omega
      · omega
    have hc1 : ¬(i = s.highestFK5 + 1 ∨ (0 < s.highestBSC ∧ i = s.highestBSC + 1) ∨
        i = s.highestStar + 1) := by
      rintro (h | ⟨h1, h2⟩ | h)
      · omega
      · have := hbb h1
        omega
      · have : s.highestFK5 ≤ s.highestStar := by
          rw [hstar]
          omega
        omega
    have hc2 : ¬(i = s.highestStar + 1 ∧ s.highestHIP = 0) :=
      fun h => hc1 (Or.inr (Or.inr h.1))
    rw [if_neg hc1, if_neg hc2]
    simp
  | some star =>
    unfold markersAt
    by_cases hc : i = s.highestFK5 + 1 ∨ (0 < s.highestBSC ∧ i = s.highestBSC + 1) ∨
        i = s.highestStar + 1
    · rw [if_pos hc, if_pos hc]
      by_cases hd2 : i = s.highestStar + 1 ∧ s.highestHIP = 0
      · rw [if_pos hd2, if_pos hd2]
        simp
      · rw [if_neg hd2, if_neg hd2]
        simp
    · have hc2 : ¬(i = s.highestStar + 1 ∧ s.highestHIP = 0) :=
        fun h => hc (Or.inr (Or.inr h.1))
      rw [if_neg hc, if_neg hc, if_neg hc2]
      simp

/-- Registry used as the C6 witness: same shape as the C5 witness, with the
block counters satisfying the pipeline shape. -/
def markerWitnessIdx : Nat → Option StarInfo :=
  fun k => if k = 1 ∨ k = 2 ∨ k = 3 ∨ k = 4 then some {} else none

/-- Witness state for C6: primary block `1..3`, bright-star block `{4}`, no
astrometry block, no deep-sky block. -/
def markerWitnessState : PState :=
  { fk5Index := markerWitnessIdx, highestFK5 := 3, highestBSC := 4, highestStar := 4 }

/-- C6 witness: the marker-count characterization on a concrete registry. -/
theorem writer_marker_bytes_witness :
    writeStarCatalog false markerWitnessState =
      some (catOut markerWitnessState (List.range' 1 (finalKey markerWitnessState))) ∧
    (∀ i ∈ List.range' 1 (finalKey markerWitnessState),
      (perKeyOut markerWitnessState i).count WItem.marker =
        (if i = markerWitnessState.highestFK5 + 1 ∨
            (0 < markerWitnessState.highestBSC ∧ i = markerWitnessState.highestBSC + 1) ∨
            i = max (max markerWitnessState.highestFK5 markerWitnessState.highestBSC)
                markerWitnessState.highestHIP + 1 then 1 else 0) +
        (if i = max (max markerWitnessState.highestFK5 markerWitnessState.highestBSC)
              markerWitnessState.highestHIP + 1 ∧ markerWitnessState.highestHIP = 0
          then 1 else 0)) :=
  writer_marker_bytes markerWitnessState (by decide) (by decide) (by decide)

theorem processCrossIndex_spec : ∀ (ls : List FK5Line) (s : PState),
    (∀ L ∈ ls, 1 ≤ L.fk5Num) →
    (s.highestStar = s.highestFK5 ∧
      ∀ k, (s.fk5Index k).isSome → 1 ≤ k ∧ k ≤ s.highestFK5) →
    ((processCrossIndex s ls).highestStar = (processCrossIndex s ls).highestFK5 ∧
      ∀ k, ((processCrossIndex s ls).fk5Index k).isSome →
        1 ≤ k ∧ k ≤ (processCrossIndex s ls).highestFK5)
  | [], _, _, hs => hs
  | L :: rest, s, hIds, hs => by
    refine processCrossIndex_spec rest (crossIndexStep s L)
      (fun L' h' => hIds L' (List.mem_cons_of_mem _ h')) ⟨rfl, ?_⟩
    intro k hk
    have hk2 : (upd s.fk5Index L.fk5Num _ k).isSome := hk
    by_cases he : k = L.fk5Num
    · subst he
      refine ⟨hIds L (List.mem_cons_self L rest), ?_⟩
      show L.fk5Num ≤ max s.highestFK5 L.fk5Num
      omega
    · rw [upd_ne _ _ _ _ he] at hk2
      have := (hs.2 k) hk2
      show 1 ≤ k ∧ k ≤ max s.highestFK5 L.fk5Num
      omega

theorem processCrossIndex_counters : ∀ (ls : List FK5Line) (s : PState),
    (processCrossIndex s ls).highestBSC = s.highestBSC ∧
    (processCrossIndex s ls).highestHIP = s.highestHIP ∧
    (processCrossIndex s ls).addedStars = s.addedStars ∧
    (processCrossIndex s ls).totalDSO = s.totalDSO
  | [], _ => ⟨rfl, rfl, rfl, rfl⟩
  | L :: rest, s => processCrossIndex_counters rest (crossIndexStep s L)

/-- Invariant threaded through bright-star pass 2: the primary block is fixed
at `F`, later counters are still unset, the bright-star high mark tracks the
added-star counter, and the registry keys are the base keys plus the dense
interval of added keys. -/
def Pass2Inv (F : Nat) (base : Nat → Prop) (s : PState) : Prop :=
  s.highestFK5 = F ∧ s.highestHIP = 0 ∧ s.totalDSO = 0 ∧
  s.highestBSC = (if s.addedStars = 0 then 0 else F + s.addedStars) ∧
  s.highestStar = F + s.addedStars ∧
  (∀ k, ((s.fk5Index k).isSome ↔ (base k ∨ (F < k ∧ k ≤ F + s.addedStars))))

theorem pass2Accept_inv (cosd : ℚ → ℚ) (F : Nat) (base : Nat → Prop) (s : PState)
    (L : BSCLine) (bayerRank fk5Num0 : Nat) (vmag : ℚ) (h : Pass2Inv F base s) :
    Pass2Inv F base (pass2Accept cosd s L bayerRank fk5Num0 vmag).1 := by
  obtain ⟨h1, h2, h3, h4, h5, h6⟩ := h
  unfold pass2Accept
  split
  · refine ⟨h1, h2, h3, ?_, ?_, ?_⟩
    · show s.highestFK5 + (s.addedStars + 1) =
        if s.addedStars + 1 = 0 then 0 else F + (s.addedStars + 1)
      rw [if_neg (Nat.succ_ne_zero _), h1]
    · show s.highestFK5 + (s.addedStars + 1) = F + (s.addedStars + 1)
      rw [h1]
    · intro k
      show (upd s.fk5Index (s.highestFK5 + (s.addedStars + 1)) _ k).isSome ↔
        base k ∨ (F < k ∧ k ≤ F + (s.addedStars + 1))
      by_cases he : k = s.highestFK5 + (s.addedStars + 1)
      · subst he
        rw [upd_same]
        simp only [Option.isSome_some, true_iff]
        right
        omega
      · rw [upd_ne _ _ _ _ he]
        rw [h6 k]
        constructor
        · rintro (hbk | hint)
          · exact Or.inl hbk
          · exact Or.inr ⟨hint.1, by omega⟩
        · rintro (hbk | hint)
          · exact Or.inl hbk
          · refine Or.inr ⟨hint.1, ?_⟩
            rcases Nat.lt_or_ge k (F + (s.addedStars + 1)) with hlt | hge
            · omega
            · exfalso
              apply he
              omega
  · exact ⟨h1, h2, h3, h4, h5, h6⟩

theorem pass2Annotate_inv (F : Nat) (base : Nat → Prop) (s1 : PState) (L : BSCLine)
    (bayerRank fk5Num : Nat) (h : Pass2Inv F base s1) :
    Pass2Inv F base (pass2Annotate s1 L bayerRank fk5Num) := by
  obtain ⟨h1, h2, h3, h4, h5, h6⟩ := h
  unfold pass2Annotate
  split
  · cases hidx : s1.fk5Index fk5Num with
    | none => exact ⟨h1, h2, h3, h4, h5, h6⟩
    | some star =>
      refine ⟨h1, h2, h3, h4, h5, ?_⟩
      intro k
      show (upd s1.fk5Index fk5Num _ k).isSome ↔ _
      by_cases he : k = fk5Num
      · subst he
        rw [upd_same]
        simp only [Option.isSome_some, true_iff]
        rw [← h6 k, hidx]
        trivial
      · rw [upd_ne _ _ _ _ he]
        exact h6 k
  · exact ⟨h1, h2, h3, h4, h5, h6⟩

theorem pass2Step_inv (cosd : ℚ → ℚ) (F : Nat) (base : Nat → Prop) (s : PState)
    (L : BSCLine) (h : Pass2Inv F base s) : Pass2Inv F base (pass2Step cosd s L) := by
  unfold pass2Step
  cases hb : s.bsc2fk5 L.bscNum with
  | none => exact h
  | some carried =>
    cases hv : L.vmagStr with
    | none => exact h
    | some vmag =>
      exact pass2Annotate_inv F base
        (pass2Accept cosd s L (bayerRankOf L.nameField)
          (if jsTrim L.fk5Field = "" then carried else clipFK5 s.highestFK5 L.fk5Num) vmag).1
        L (bayerRankOf L.nameField)
        (pass2Accept cosd s L (bayerRankOf L.nameField)
          (if jsTrim L.fk5Field = "" then carried else clipFK5 s.highestFK5 L.fk5Num) vmag).2
        (pass2Accept_inv cosd F base s L _ _ _ h)

theorem pass2_fold_inv (cosd : ℚ → ℚ) (F : Nat) (base : Nat → Prop) :
    ∀ (ls : List BSCLine) (s : PState), Pass2Inv F base s →
      Pass2Inv F base (ls.foldl (pass2Step cosd) s)
  | [], _, h => h
  | L :: rest, s, h =>
    pass2_fold_inv cosd F base rest (pass2Step cosd s L) (pass2Step_inv cosd F base s L h)

/-- Stage 2 establishes the pass-2 invariant relative to the stage-1 state. -/
theorem processYaleBrightStarCatalog_inv (cosd : ℚ → ℚ) (s1 : PState) (ls : List BSCLine)
    (h1 : s1.highestHIP = 0) (h2 : s1.totalDSO = 0) (h3 : s1.highestBSC = 0)
    (h4 : s1.addedStars = 0) (h5 : s1.highestStar = s1.highestFK5) :
    Pass2Inv s1.highestFK5 (fun k => (s1.fk5Index k).isSome)
      (processYaleBrightStarCatalog cosd s1 ls) := by
  apply pass2_fold_inv
  refine ⟨rfl, h1, h2, ?_, ?_, ?_⟩
  · rw [h4, h3]
    rfl
  · rw [h4, h5]
    omega
  · intro k
    rw [h4]
    constructor
    · intro hk
      exact Or.inl hk
    · rintro (hk | hint)
      · exact hk
      · omega

theorem upd_isSome_iff (f : Nat → Option StarInfo) (k : Nat) (v : StarInfo) (star : StarInfo)
    (hidx : f k = some star) (P : Nat → Prop) (h : ∀ x, (f x).isSome ↔ P x) :
    ∀ x, ((upd f k (some v)) x).isSome ↔ P x := by
  intro x
  by_cases he : x = k
  · subst he
    rw [upd_same]
    have h2 := h x
    rw [hidx] at h2
    simpa using h2
  · rw [upd_ne _ _ _ _ he]
    exact h x

theorem upd_isSome_iff_insert (f : Nat → Option StarInfo) (k : Nat) (v : StarInfo)
    (P : Nat → Prop) (h : ∀ x, (f x).isSome ↔ P x) :
    ∀ x, ((upd f k (some v)) x).isSome ↔ (P x ∨ x = k) := by
  intro x
  by_cases he : x = k
  · subst he
    rw [upd_same]
    simp
  · rw [upd_ne _ _ _ _ he]
    rw [h x]
    simp [he]

theorem interval_extend (A B : Nat) (hAB : A ≤ B) (x : Nat) (b : Prop) :
    ((b ∨ (A < x ∧ x ≤ B)) ∨ x = B + 1) ↔ (b ∨ (A < x ∧ x ≤ B + 1)) := by
  constructor
  · rintro ((hb | hint) | rfl)
    · exact Or.inl hb
    · exact Or.inr ⟨hint.1, by omega⟩
    · exact Or.inr ⟨by omega, by omega⟩
  · rintro (hb | hint)
    · exact Or.inl (Or.inl hb)
    · rcases Nat.lt_or_ge x (B + 1) with hlt | hge
      · exact Or.inl (Or.inr ⟨hint.1, by omega⟩)
      · exact Or.inr (by omega)

theorem notesStep_preserves (s s' : PState) (L : NotesLine) (h : notesStep s L = some s') :
    (∀ k, (s'.fk5Index k).isSome ↔ (s.fk5Index k).isSome) ∧
    s'.highestFK5 = s.highestFK5 ∧ s'.highestBSC = s.highestBSC ∧
    s'.highestHIP = s.highestHIP ∧ s'.highestStar = s.highestStar ∧
    s'.addedStars = s.addedStars ∧ s'.totalDSO = s.totalDSO := by
  unfold notesStep at h
  split at h
  · cases h
    exact ⟨fun _ => Iff.rfl, rfl, rfl, rfl, rfl, rfl, rfl⟩
  · split at h
    · cases h
      exact ⟨fun _ => Iff.rfl, rfl, rfl, rfl, rfl, rfl, rfl⟩
    · split at h
      · cases h
        exact ⟨fun _ => Iff.rfl, rfl, rfl, rfl, rfl, rfl, rfl⟩
      · split at h
        · exact absurd h (by simp)
        · split at h
          · exact absurd h (by simp)
          · obtain rfl := Option.some_injective _ h
            refine ⟨?_, rfl, rfl, rfl, rfl, rfl, rfl⟩
            exact upd_isSome_iff _ _ _ _ (by assumption) _ (fun _ => Iff.rfl)

theorem processNotes_preserves : ∀ (ls : List NotesLine) (s s' : PState),
    processYaleBrightStarCatalogNotes s ls = some s' →
    ((∀ k, (s'.fk5Index k).isSome ↔ (s.fk5Index k).isSome) ∧
     s'.highestFK5 = s.highestFK5 ∧ s'.highestBSC = s.highestBSC ∧
     s'.highestHIP = s.highestHIP ∧ s'.highestStar = s.highestStar ∧
     s'.addedStars = s.addedStars ∧ s'.totalDSO = s.totalDSO)
  | [], s, s', h => by
    cases h
    exact ⟨fun _ => Iff.rfl, rfl, rfl, rfl, rfl, rfl, rfl⟩
  | L :: rest, s, s', h => by
    unfold processYaleBrightStarCatalogNotes at h
    cases hstep : notesStep s L with
    | none =>
      rw [hstep] at h
      exact absurd h (by simp)
    | some s1 =>
      rw [hstep] at h
      obtain ⟨p0, p1, p2, p3, p4, p5, p6⟩ := notesStep_preserves s s1 L hstep
      obtain ⟨q0, q1, q2, q3, q4, q5, q6⟩ := processNotes_preserves rest s1 s' h
      exact ⟨fun k => (q0 k).trans (p0 k), q1.trans p1, q2.trans p2, q3.trans p3,
        q4.trans p4, q5.trans p5, q6.trans p6⟩

/-- Invariant threaded through the stage-4 row loop: the primary and
bright-star blocks are fixed, the deep-sky counter still unset, the astrometry
high mark tracks the added-star counter past the stage-2 value `a2`, and the
registry keys are the base keys plus the dense interval of stage-4 additions. -/
def Hip4Inv (F a2 : Nat) (base : Nat → Prop) (s : PState) : Prop :=
  s.highestFK5 = F ∧ s.totalDSO = 0 ∧
  s.highestBSC = (if a2 = 0 then 0 else F + a2) ∧
  a2 ≤ s.addedStars ∧
  s.highestHIP = (if s.addedStars = a2 then 0 else F + s.addedStars) ∧
  s.highestStar = F + s.addedStars ∧
  (∀ k, ((s.fk5Index k).isSome ↔ (base k ∨ (F + a2 < k ∧ k ≤ F + s.addedStars))))

theorem hipRowStep_inv (cosd : ℚ → ℚ) (F a2 : Nat) (base : Nat → Prop) (s : PState)
    (row : HipRow) (h : Hip4Inv F a2 base s) (s' : PState)
    (hr : hipRowStep cosd s row = .next s' ∨ hipRowStep cosd s row = .stop s') :
    Hip4Inv F a2 base s' := by
  obtain ⟨h1, h2, h3, h4, h5, h6, h7⟩ := h
  unfold hipRowStep at hr
  by_cases hz : row.hipNum = 0
  · rw [if_pos hz] at hr
    rcases hr with hr | hr
    · cases hr
      exact ⟨h1, h2, h3, h4, h5, h6, h7⟩
    · cases hr
  · rw [if_neg hz] at hr
    by_cases hblank : row.raStr = none ∨ row.deStr = none ∨ row.vmagStr = none ∨
        row.pmRAStr = none ∨ row.pmDEStr = none
    · rw [if_pos hblank] at hr
      rcases hr with hr | hr
      · cases hr
        exact ⟨h1, h2, h3, h4, h5, h6, h7⟩
      · cases hr
    · rw [if_neg hblank] at hr
      by_cases hf : 0 < hipResolveFk5 s row
      · rw [if_pos hf] at hr
        cases hidx : s.fk5Index (hipResolveFk5 s row) with
        | none =>
          rw [hidx] at hr
          rcases hr with hr | hr <;> cases hr
        | some star =>
          rw [hidx] at hr
          rcases hr with hr | hr
          · cases hr
            exact ⟨h1, h2, h3, h4, h5, h6,
              upd_isSome_iff s.fk5Index _ _ star hidx _ h7⟩
          · cases hr
      · rw [if_neg hf] at hr
        by_cases hbp : 0 < hipResolveBsc s row
        · rw [if_pos hbp] at hr
          cases hkey : s.bscKey (hipResolveBsc s row) with
          | none =>
            simp only [hkey] at hr
            rcases hr with hr | hr <;> cases hr
          | some k =>
            simp only [hkey] at hr
            cases hidx : s.fk5Index k with
            | none =>
              simp only [hidx] at hr
              rcases hr with hr | hr <;> cases hr
            | some star =>
              simp only [hidx] at hr
              rcases hr with hr | hr
              · cases hr
                exact ⟨h1, h2, h3, h4, h5, h6,
                  upd_isSome_iff s.fk5Index _ _ star hidx _ h7⟩
              · cases hr
        · rw [if_neg hbp] at hr
          by_cases hm : magLimitHipparcos < row.vmagStr.getD 0
          · rw [if_pos hm] at hr
            rcases hr with hr | hr
            · cases hr
            · cases hr
              exact ⟨h1, h2, h3, h4, h5, h6, h7⟩
          · rw [if_neg hm] at hr
            rcases hr with hr | hr
            · cases hr
              refine ⟨h1, h2, h3, (show a2 ≤ s.addedStars + 1 by omega), ?_, ?_, ?_⟩
              · show s.highestFK5 + (s.addedStars + 1) =
                  if s.addedStars + 1 = a2 then 0 else F + (s.addedStars + 1)
                rw [if_neg (by omega), h1]
              · show s.highestFK5 + (s.addedStars + 1) = F + (s.addedStars + 1)
                rw [h1]
              · intro k
                show ((upd s.fk5Index (s.highestFK5 + (s.addedStars + 1)) _ k).isSome ↔ _)
                rw [upd_isSome_iff_insert s.fk5Index _ _ _ h7 k]
                rw [h1]
                have heq : F + (s.addedStars + 1) = (F + s.addedStars) + 1 := by omega
                rw [heq]
                exact interval_extend (F + a2) (F + s.addedStars) (by omega) k (base k)
            · cases hr

theorem hipRows_inv (cosd : ℚ → ℚ) (F a2 : Nat) (base : Nat → Prop) :
    ∀ (rows : List HipRow) (s s' : PState), Hip4Inv F a2 base s →
      processHipparcosRows cosd s rows = some s' → Hip4Inv F a2 base s'
  | [], s, s', h, hr => by
    cases hr
    exact h
  | row :: rest, s, s', h, hr => by
    unfold processHipparcosRows at hr
    cases hstep : hipRowStep cosd s row with
    | next s1 =>
      rw [hstep] at hr
      exact hipRows_inv cosd F a2 base rest s1 s'
        (hipRowStep_inv cosd F a2 base s row h s1 (Or.inl hstep)) hr
    | stop s1 =>
      rw [hstep] at hr
      obtain rfl := Option.some_injective _ hr
      exact hipRowStep_inv cosd F a2 base s row h s1 (Or.inr hstep)
    | crash =>
      rw [hstep] at hr
      exact absurd hr (by simp)

/-- Invariant of the deep-sky appends (the Pleiades insertion and the NGC data
loop): all stellar counters stay at their stage-4 values, and the registry
keys are the stage-4 keys plus the dense interval of deep-sky keys following
`highestStar`. -/
def DsoInv (H : Nat) (base : Nat → Prop) (s0 s : PState) : Prop :=
  s.highestFK5 = s0.highestFK5 ∧ s.highestBSC = s0.highestBSC ∧
  s.highestHIP = s0.highestHIP ∧ s.addedStars = s0.addedStars ∧
  s.highestStar = H ∧
  (∀ k, ((s.fk5Index k).isSome ↔ (base k ∨ (H < k ∧ k ≤ H + s.totalDSO))))

theorem addPleiades_inv (H : Nat) (base : Nat → Prop) (s0 s : PState)
    (h : DsoInv H base s0 s) : DsoInv H base s0 (addPleiades s) := by
  obtain ⟨h1, h2, h3, h4, h5, h6⟩ := h
  unfold addPleiades
  cases hp : s.pleiades with
  | none => exact ⟨h1, h2, h3, h4, h5, h6⟩
  | some p =>
    refine ⟨h1, h2, h3, h4, h5, ?_⟩
    intro k
    show ((upd s.fk5Index (s.highestStar + (s.totalDSO + 1)) _ k).isSome ↔ _)
    rw [upd_isSome_iff_insert s.fk5Index _ _ _ h6 k]
    rw [h5]
    have heq : H + (s.totalDSO + 1) = (H + s.totalDSO) + 1 := by omega
    rw [heq]
    exact interval_extend H (H + s.totalDSO) (by omega) k (base k)

theorem processNgcDataStep_inv (ngcs : Int → Option NGCMatchInfo) (H : Nat)
    (base : Nat → Prop) (s0 s : PState) (row : NgcRow) (h : DsoInv H base s0 s) :
    DsoInv H base s0 (processNgcDataStep ngcs s row) := by
  obtain ⟨h1, h2, h3, h4, h5, h6⟩ := h
  simp only [processNgcDataStep]
  split
  · exact ⟨h1, h2, h3, h4, h5, h6⟩
  · refine ⟨h1, h2, h3, h4, h5, ?_⟩
    intro k
    show ((upd s.fk5Index (s.highestStar + (s.totalDSO + 1)) _ k).isSome ↔ _)
    rw [upd_isSome_iff_insert s.fk5Index _ _ _ h6 k]
    rw [h5]
    have heq : H + (s.totalDSO + 1) = (H + s.totalDSO) + 1 := by omega
    rw [heq]
    exact interval_extend H (H + s.totalDSO) (by omega) k (base k)

theorem processNgcData_inv (ngcs : Int → Option NGCMatchInfo) (H : Nat)
    (base : Nat → Prop) (s0 : PState) :
    ∀ (ls : List NgcRow) (s : PState), DsoInv H base s0 s →
      DsoInv H base s0 (processNgcData ngcs s ls)
  | [], _, h => h
  | row :: rest, s, h =>
    processNgcData_inv ngcs H base s0 rest (processNgcDataStep ngcs s row)
      (processNgcDataStep_inv ngcs H base s0 s row h)

/-- Block structure of the final registry, stated against the intermediate
stage states: `s1` after the primary loader, `s2` after the bright-star
merger, `s4a` after the astrometry row loop (before the Pleiades append) and
`s5` the final state after the deep-sky merger.  Writing `F` for the primary
high mark, `b2 = max F highestBSC` for the end of the bright-star block,
`b3 = max b2 highestHIP` for the end of the astrometry block and
`N = highestStar + totalDSO` for the final key: the primary keys are exactly
the stage-1 keys and lie in `[1, F]`; the three addition blocks (the keys each
stage adds) are exactly the integer intervals `(F, b2]`, `(b2, b3]`, `(b3, N]`
— so keys are strictly increasing within each block and dense there; every
key of an earlier block is strictly below every key of a later block; and
every key above the primary block up to `N` is present. -/
def BlocksInvariant (s1 s2 s4a s5 : PState) : Prop :=
  let F := s5.highestFK5
  let b2 := max F s5.highestBSC
  let b3 := max b2 s5.highestHIP
  let N := s5.highestStar + s5.totalDSO
  F = s1.highestFK5 ∧
  F ≤ b2 ∧ b2 ≤ b3 ∧ b3 = s5.highestStar ∧ b3 ≤ N ∧
  (∀ k, (s1.fk5Index k).isSome → 1 ≤ k ∧ k ≤ F) ∧
  (∀ k, k ≤ F → ((s5.fk5Index k).isSome ↔ (s1.fk5Index k).isSome)) ∧
  (∀ k, ((s2.fk5Index k).isSome ∧ ¬(s1.fk5Index k).isSome) ↔ (F < k ∧ k ≤ b2)) ∧
  (∀ k, ((s4a.fk5Index k).isSome ∧ ¬(s2.fk5Index k).isSome) ↔ (b2 < k ∧ k ≤ b3)) ∧
  (∀ k, ((s5.fk5Index k).isSome ∧ ¬(s4a.fk5Index k).isSome) ↔ (b3 < k ∧ k ≤ N)) ∧
  (∀ k, (s5.fk5Index k).isSome → 1 ≤ k ∧ k ≤ N) ∧
  (∀ k, F < k → k ≤ N → (s5.fk5Index k).isSome) ∧
  (∀ j k, (s1.fk5Index j).isSome →
    ((s2.fk5Index k).isSome ∧ ¬(s1.fk5Index k).isSome) → j < k) ∧
  (∀ j k, ((s2.fk5Index j).isSome ∧ ¬(s1.fk5Index j).isSome) →
    ((s4a.fk5Index k).isSome ∧ ¬(s2.fk5Index k).isSome) → j < k) ∧
  (∀ j k, ((s4a.fk5Index j).isSome ∧ ¬(s2.fk5Index j).isSome) →
    ((s5.fk5Index k).isSome ∧ ¬(s4a.fk5Index k).isSome) → j < k)

/-- C1: after all five pipeline stages complete (primary loader, bright-star
merger, bright-star annotator, astrometry row loop with the trailing Pleiades
append, deep-sky merger), the registry keys form four blocks in fixed order —
primary-catalog keys, bright-star additions, astrometry additions, deep-sky
objects — with every key of an earlier block strictly below every key of a
later block, strictly increasing keys within each block, and the three
non-primary blocks dense (no gaps).  The primary ids of the input are assumed
positive, and the annotator and astrometry stages are assumed not to throw. -/
theorem pipeline_block_structure (cosd : ℚ → ℚ)
    (fk5Lines : List FK5Line) (bscLines : List BSCLine) (notesLines : List NotesLine)
    (hipRows : List HipRow) (ngcs : Int → Option NGCMatchInfo) (ngcRows : List NgcRow)
    (hIds : ∀ L ∈ fk5Lines, 1 ≤ L.fk5Num)
    (s1 s2 s3 s4a s5 : PState)
    (h1 : processCrossIndex {} fk5Lines = s1)
    (h2 : processYaleBrightStarCatalog cosd s1 bscLines = s2)
    (h3 : processYaleBrightStarCatalogNotes s2 notesLines = some s3)
    (h4 : processHipparcosRows cosd s3 hipRows = some s4a)
    (h5 : processNgcData ngcs (addPleiades s4a) ngcRows = s5) :
    BlocksInvariant s1 s2 s4a s5 := by
  subst h1 h2 h5
  obtain ⟨e1, e2⟩ := processCrossIndex_spec fk5Lines {} hIds ⟨rfl, by intro k hk; simp at hk⟩
  obtain ⟨c1, c2, c3, c4⟩ := processCrossIndex_counters fk5Lines {}
  set s1 := processCrossIndex {} fk5Lines with hs1
  obtain ⟨p1, p2, p3, p4, p5, p6⟩ :=
    processYaleBrightStarCatalog_inv cosd s1 bscLines c2 c4 c1 c3 e1
  set s2 := processYaleBrightStarCatalog cosd s1 bscLines with hs2
  obtain ⟨n0, n1, n2, n3, n4, n5, n6⟩ := processNotes_preserves notesLines s2 s3 h3
  have hip_entry : Hip4Inv s1.highestFK5 s2.addedStars
      (fun k => (s2.fk5Index k).isSome) s3 := by
    refine ⟨n1.trans p1, n6.trans p3, n2.trans p4, Nat.le_of_eq n5.symm, ?_, ?_, ?_⟩
    · rw [n3, p2, if_pos n5]
    · rw [n4, p5, n5]
    · intro k
      rw [n5]
      constructor
      · intro hk
        exact Or.inl ((n0 k).mp hk)
      · rintro (hk | hint)
        · exact (n0 k).mpr hk
        · omega
  obtain ⟨q1, q2, q3, q4, q5, q6, q7⟩ :=
    hipRows_inv cosd s1.highestFK5 s2.addedStars _ hipRows s3 s4a hip_entry h4
  have dso_entry : DsoInv s4a.highestStar (fun k => (s4a.fk5Index k).isSome) s4a s4a := by
    refine ⟨rfl, rfl, rfl, rfl, rfl, ?_⟩
    intro k
    constructor
    · intro hk
      exact Or.inl hk
    · rintro (hk | hint)
      · exact hk
      · omega
  obtain ⟨d1, d2, d3, d4, d5, d6⟩ :=
    processNgcData_inv ngcs s4a.highestStar _ s4a ngcRows (addPleiades s4a)
      (addPleiades_inv s4a.highestStar _ s4a s4a dso_entry)
  set s5 := processNgcData ngcs (addPleiades s4a) ngcRows with hs5
  -- abbreviations for the block arithmetic
  set F := s1.highestFK5 with hF
  set a2 := s2.addedStars with ha2
  set a := s4a.addedStars with ha
  have hF5 : s5.highestFK5 = F := d1.trans q1
  have hB : s5.highestBSC = if a2 = 0 then 0 else F + a2 := d2.trans q3
  have hH : s5.highestHIP = if a = a2 then 0 else F + a := d3.trans q5
  have hS : s5.highestStar = F + a := by
    rw [d5, q6]
  have ha2a : a2 ≤ a := q4
  have hmax2 : max F s5.highestBSC = F + a2 := by
    rw [hB]
    split_ifs with hz <;> omega
  have hmax3 : max (F + a2) s5.highestHIP = F + a := by
    rw [hH]
    split_ifs with hz <;> omega
  -- domain characterizations
  have hdom1b : ∀ k, (s1.fk5Index k).isSome → 1 ≤ k ∧ k ≤ F := e2
  have hdom2 : ∀ k, (s2.fk5Index k).isSome ↔
      ((s1.fk5Index k).isSome ∨ (F < k ∧ k ≤ F + a2)) := p6
  have hdom4 : ∀ k, (s4a.fk5Index k).isSome ↔
      ((s2.fk5Index k).isSome ∨ (F + a2 < k ∧ k ≤ F + a)) := q7
  have hdom5 : ∀ k, (s5.fk5Index k).isSome ↔
      ((s4a.fk5Index k).isSome ∨ (F + a < k ∧ k ≤ F + a + s5.totalDSO)) := by
    intro k
    have := d6 k
    rw [q6] at this
    exact this
  have hb2 : ∀ k, (s2.fk5Index k).isSome → 1 ≤ k ∧ k ≤ F + a2 := by
    intro k hk
    rcases (hdom2 k).mp hk with hk1 | hk1
    · have := hdom1b k hk1
      omega
    · omega
  have hb4 : ∀ k, (s4a.fk5Index k).isSome → 1 ≤ k ∧ k ≤ F + a := by
    intro k hk
    rcases (hdom4 k).mp hk with hk1 | hk1
    · have := hb2 k hk1
      omega
    · omega
  have hb5 : ∀ k, (s5.fk5Index k).isSome → 1 ≤ k ∧ k ≤ F + a + s5.totalDSO := by
    intro k hk
    rcases (hdom5 k).mp hk with hk1 | hk1
    · have := hb4 k hk1
      omega
    · omega
  simp only [BlocksInvariant]
  rw [hF5, hmax2, hmax3, hS]
  refine ⟨rfl, by omega, by omega, rfl, by omega, hdom1b, ?_, ?_, ?_, ?_, ?_, ?_, ?_, ?_, ?_⟩
  · -- primary block unchanged by later stages
    intro k hk
    rw [hdom5 k, hdom4 k, hdom2 k]
    constructor
    · rintro ((( hk1 | hint) | hint) | hint)
      · exact hk1
      · omega
      · omega
      · omega
    · intro hk1
      exact Or.inl (Or.inl (Or.inl hk1))
  · -- the bright-star block is exactly (F, F + a2]
    intro k
    rw [hdom2 k]
    constructor
    · rintro ⟨hk1 | hint, hk2⟩
      · exact absurd hk1 hk2
      · exact hint
    · intro hint
      refine ⟨Or.inr hint, ?_⟩
      intro hk1
      have := hdom1b k hk1
      omega
  · -- the astrometry block is exactly (F + a2, F + a]
    intro k
    rw [hdom4 k]
    constructor
    · rintro ⟨hk1 | hint, hk2⟩
      · exact absurd hk1 hk2
      · exact hint
    · intro hint
      refine ⟨Or.inr hint, ?_⟩
      intro hk1
      have := hb2 k hk1
      omega
  · -- the deep-sky block is exactly (F + a, F + a + totalDSO]
    intro k
    rw [hdom5 k]
    constructor
    · rintro ⟨hk1 | hint, hk2⟩
      · exact absurd hk1 hk2
      · exact hint
    · intro hint
      refine ⟨Or.inr hint, ?_⟩
      intro hk1
      have := hb4 k hk1
      omega
  · -- global bound
    exact hb5
  · -- density above the primary block
    intro k hk1 hk2
    rcases Nat.lt_or_ge (F + a2) k with hgt2 | hge2
    · rcases Nat.lt_or_ge (F + a) k with hgt3 | hge3
      · rw [hdom5 k]
        exact Or.inr ⟨hgt3, by omega⟩
      · rw [hdom5 k, hdom4 k]
        exact Or.inl (Or.inr ⟨hgt2, by omega⟩)
    · rw [hdom5 k, hdom4 k, hdom2 k]
      exact Or.inl (Or.inl (Or.inr ⟨hk1, by omega⟩))
  · -- primary keys precede bright-star keys
    intro j k hj hk
    have h1b := hdom1b j hj
    rcases hk with ⟨hk1, hk2⟩
    rcases (hdom2 k).mp hk1 with hkk | hkk
    · exact absurd hkk hk2
    · omega
  · -- bright-star keys precede astrometry keys
    intro j k hj hk
    rcases hj with ⟨hj1, hj2⟩
    have hjb := hb2 j hj1
    rcases hk with ⟨hk1, hk2⟩
    rcases (hdom4 k).mp hk1 with hkk | hkk
    · exact absurd hkk hk2
    · omega
  · -- astrometry keys precede deep-sky keys
    intro j k hj hk
    rcases hj with ⟨hj1, hj2⟩
    have hjb := hb4 j hj1
    rcases hk with ⟨hk1, hk2⟩
    rcases (hdom5 k).mp hk1 with hkk | hkk
    · exact absurd hkk hk2
    · omega

/-- C1 witness: the pipeline on empty inputs (all hypotheses hold trivially
and every stage succeeds). -/
theorem pipeline_block_structure_witness :
    BlocksInvariant (processCrossIndex {} [])
      (processYaleBrightStarCatalog (fun q => q) (processCrossIndex {} []) [])
      (processYaleBrightStarCatalog (fun q => q) (processCrossIndex {} []) [])
      (processNgcData (fun _ => none)
        (addPleiades (processYaleBrightStarCatalog (fun q => q) (processCrossIndex {} []) []))
        []) :=
  pipeline_block_structure (fun q => q) [] [] [] [] (fun _ => none) []
    (by intro L hL; cases hL) _ _ _ _ _ rfl rfl rfl rfl rfl

/-- C7 witness: the row resolves to key 3; magnitude keeps min 5 4, the
other astrometric fields take the row's converted values. -/
theorem hipparcos_override_witness :
    ∃ s', hipRowStep (fun _ => 1) hipWitnessState hipWitnessRow = .next s' ∧
      s'.fk5Index 3 = some
        { ({ vmag := some 4 } : StarInfo) with
            vmag := some (min 5 4)
            RA := some (30 / 15)
            DE := some 0
            pmRA := some (2 * mkRat 66667 10000000 / 1)
            pmDE := some (4 / 10) } :=
  hipparcos_override (fun _ => 1) hipWitnessState hipWitnessRow 3 { vmag := some 4 }
    4 30 0 5 2 4 (by decide) rfl rfl rfl rfl rfl (by decide) (by decide) rfl

end StarCat
